import Mathlib

/-!
Verification development for the supplier-ledger application
(src/Project_ocho_uno.py).

Shallow embedding conventions:

- Monetary and weight values are embedded as rationals. The Python code works
  with floats; all claims under scrutiny are about the algebraic structure of
  the computation (sums, prefix sums, joins, field updates), which is identical
  over the rationals.
- Calendar dates are embedded as naturals ordered like the dates themselves
  (for concrete witnesses we use the yyyymmdd encoding); the sentinel date
  1900-01-01 of the BALANCE_INICIAL row is the constant sentinelDate.
  `pd.to_datetime` coercion is modelled on parseable dates only.
- A dataframe cell that can be absent or non-numeric is an Option value;
  `pd.to_numeric(col, errors="coerce").fillna(0)` is the function pnum, which
  maps a missing value to 0 and keeps a numeric value unchanged.
- The sequence column "N" holds strings; `pd.to_numeric` on it is modelled on
  the nonnegative integer numerals the application itself generates
  (String.toNat?), with coercion failure going to 0 as in the code.
- A mutating operation that reports an error to the user and returns without
  touching the stored dataset is an Except value; the .error branch carries
  the message and the caller keeps the previous state (the run* wrappers).
-/

/-- Fixed starting balance constant INITIAL_ACCUMULATED_BALANCE = 176.01. -/
def INITIAL_ACCUMULATED_BALANCE : ℚ := 17601 / 100

/-- Fixed conversion factor LBS_PER_KG = 2.20462. -/
def LBS_PER_KG : ℚ := 220462 / 100000

/-- Fixed product name. -/
def PRODUCT_NAME : String := "Pollo"

/-- Date of the BALANCE_INICIAL row, datetime(1900, 1, 1).date(), in the
yyyymmdd encoding of dates as naturals. -/
def sentinelDate : Nat := 19000101

/-- pd.to_numeric(value, errors="coerce") followed by fillna(0): an absent or
unparseable cell becomes 0, a numeric cell keeps its value. -/
def pnum (o : Option ℚ) : ℚ := o.getD 0

/-- One row of the "proveedores" table (COLUMNS_DATA). String-typed source
columns that the initial-balance row leaves unset are Option String; numeric
columns are Option of a rational. -/
@[ext]
structure Row where
  n : String
  fecha : Nat
  proveedor : String
  producto : Option String
  cantidad : Option ℚ
  pesoSalida : Option ℚ
  pesoEntrada : Option ℚ
  tipoDocumento : Option String
  gavetas : Option ℚ
  precioUnitario : Option ℚ
  promedio : Option ℚ
  kilosRestantes : Option ℚ
  librasRestantes : Option ℚ
  total : Option ℚ
  montoDeposito : Option ℚ
  saldoDiario : Option ℚ
  saldoAcumulado : Option ℚ
deriving DecidableEq

/-- One row of the "depositos" table (COLUMNS_DEPOSITS). -/
structure Dep where
  fecha : Nat
  empresa : String
  agencia : String
  monto : Option ℚ
  documento : String
  n : String
deriving DecidableEq

/-- One row of the "notas_debito" table (COLUMNS_DEBIT_NOTES). -/
structure Note where
  fecha : Nat
  librasCalculadas : Option ℚ
  descuento : Option ℚ
  descuentoPosible : Option ℚ
  descuentoReal : Option ℚ
deriving DecidableEq

/-- The test `row["Proveedor"] == "BALANCE_INICIAL"` distinguishing the
anchor row from operational rows. -/
def isAnchor (r : Row) : Bool := r.proveedor == "BALANCE_INICIAL"

/-- df[df["Proveedor"] != "BALANCE_INICIAL"]: the operational rows. -/
def opsOf (data : List Row) : List Row := data.filter (fun r => !isAnchor r)

/-- df[df["Proveedor"] == "BALANCE_INICIAL"]: the anchor rows. -/
def anchorsOf (data : List Row) : List Row := data.filter isAnchor

/-- Numeric coercion of the source columns followed by the per-row derivation
of recalculate_accumulated_balances lines 169-177: Kilos Restantes,
Libras Restantes, Promedio (0 when Cantidad is 0), Total. -/
def coerceDerive (r : Row) : Row :=
  let c := pnum r.cantidad
  let ps := pnum r.pesoSalida
  let pe := pnum r.pesoEntrada
  let pu := pnum r.precioUnitario
  let kilos := ps - pe
  let libras := kilos * LBS_PER_KG
  { r with
    cantidad := some c
    pesoSalida := some ps
    pesoEntrada := some pe
    precioUnitario := some pu
    gavetas := some (pnum r.gavetas)
    montoDeposito := some (pnum r.montoDeposito)
    saldoDiario := some (pnum r.saldoDiario)
    saldoAcumulado := some (pnum r.saldoAcumulado)
    kilosRestantes := some kilos
    librasRestantes := some libras
    promedio := some (if c ≠ 0 then libras / c else 0)
    total := some (libras * pu) }

/-- Day-level deposit aggregation: the value of
df_deposits.groupby(["Fecha", "Empresa"])["Monto"].sum() at a key, with the
fillna(0) of the left merge when the key is absent. -/
def depositSum (deps : List Dep) (d : Nat) (emp : String) : ℚ :=
  (((deps.filter (fun p => decide (p.fecha = d) && decide (p.empresa = emp))).map
    (fun p => pnum p.monto)).sum)

/-- The deposit merge of lines 183-199: with no deposits at all the column is
set to 0.0 directly, otherwise each row receives its (Fecha, Proveedor) group
sum with missing groups going to 0. -/
def attachDeposit (deps : List Dep) (r : Row) : Row :=
  if deps.isEmpty then { r with montoDeposito := some 0 }
  else { r with montoDeposito := some (depositSum deps r.fecha r.proveedor) }

/-- Line 201: Saldo diario = Monto Deposito - Total, per row. -/
def computeSaldoDiario (r : Row) : Row :=
  { r with saldoDiario := some (pnum r.montoDeposito - pnum r.total) }

/-- The whole per-row part of the pipeline: coercion and derivation, deposit
merge, per-row daily net. -/
def stage3Row (deps : List Dep) (r : Row) : Row :=
  computeSaldoDiario (attachDeposit deps (coerceDerive r))

/-- The operational rows after the per-row part of the pipeline. -/
def opsStage3 (data : List Row) (deps : List Dep) : List Row :=
  (opsOf data).map (stage3Row deps)

/-- Projection of a processed row onto the two columns the per-day grouping
reads: Fecha and Saldo diario. -/
def projSD (r : Row) : Nat × ℚ := (r.fecha, pnum r.saldoDiario)

/-- df_data_operaciones.groupby("Fecha")["Saldo diario"].sum() at a date. -/
def dailySum (l : List Row) (d : Nat) : ℚ :=
  ((((l.map projSD).filter (fun e => decide (e.1 = d))).map Prod.snd).sum)

/-- Projection of a debit note onto the two columns the per-day grouping
reads: Fecha and the coerced Descuento real. -/
def projNote (nt : Note) : Nat × ℚ := (nt.fecha, pnum nt.descuentoReal)

/-- df_notes.groupby("Fecha")["Descuento real"].sum() at a date, with the
fillna(0) of the left merge when the date has no note. -/
def notesSum (notes : List Note) (d : Nat) : ℚ :=
  ((((notes.map projNote).filter (fun e => decide (e.1 = d))).map Prod.snd).sum)

/-- SaldoDiarioAjustado at a date (lines 203-214): the per-day sum of row
daily nets, plus the per-day real-discount sum when the notes table is not
empty. -/
def adjustedNet (ops : List Row) (notes : List Note) (d : Nat) : ℚ :=
  if notes.isEmpty then dailySum ops d
  else dailySum ops d + notesSum notes d

/-- Insert a date into a strictly sorted duplicate-free list of dates. -/
def insD (d : Nat) : List Nat → List Nat
  | [] => [d]
  | x :: xs => if d < x then d :: x :: xs else if d = x then x :: xs else x :: insD d xs

/-- The ascending duplicate-free list of group keys produced by
groupby("Fecha") followed by sort_values("Fecha"). -/
def sortedDedup (l : List Nat) : List Nat := l.foldr insD []

/-- The distinct operational dates in ascending order. -/
def datesSorted (l : List Row) : List Nat := sortedDedup (l.map (fun r => r.fecha))

/-- Running prefix sum: cumsumPairs acc [(d, v), ...] tags every date with its
daily value and the running total acc + v + ... through that date. -/
def cumsumPairs (acc : ℚ) : List (Nat × ℚ) → List (Nat × ℚ × ℚ)
  | [] => []
  | (d, v) :: rest => (d, v, acc + v) :: cumsumPairs (acc + v) rest

/-- full_daily_balances after line 217: one entry per distinct operational
date, ascending, carrying SaldoDiarioAjustado and Saldo Acumulado
(INITIAL_ACCUMULATED_BALANCE plus the running sum of adjusted daily nets). -/
def dailyTable (ops : List Row) (notes : List Note) : List (Nat × ℚ × ℚ) :=
  cumsumPairs INITIAL_ACCUMULATED_BALANCE
    ((datesSorted ops).map (fun d => (d, adjustedNet ops notes d)))

/-- Lookup in the saldo_diario_map dictionary, with the fillna(0) of line
223. -/
def tblAdj (t : List (Nat × ℚ × ℚ)) (d : Nat) : ℚ :=
  match t.find? (fun e => decide (e.1 = d)) with
  | some e => e.2.1
  | none => 0

/-- Lookup in the saldo_acumulado_map dictionary, with the
fillna(INITIAL_ACCUMULATED_BALANCE) of line 224. -/
def tblCum (t : List (Nat × ℚ × ℚ)) (d : Nat) : ℚ :=
  match t.find? (fun e => decide (e.1 = d)) with
  | some e => e.2.2
  | none => INITIAL_ACCUMULATED_BALANCE

/-- Broadcast of the per-date results back onto a row (lines 222-224). -/
def broadcastRow (t : List (Nat × ℚ × ℚ)) (r : Row) : Row :=
  { r with saldoDiario := some (tblAdj t r.fecha)
           saldoAcumulado := some (tblCum t r.fecha) }

/-- Re-attachment of the anchor row with its fixed fields (lines 226-232). -/
def resetAnchor (r : Row) : Row :=
  { r with saldoAcumulado := some INITIAL_ACCUMULATED_BALANCE
           saldoDiario := some 0
           montoDeposito := some 0
           total := some 0
           n := "00"
           fecha := sentinelDate }

/-- The sort key order of sort_values(by=["Fecha", "N"]): lexicographic on
(Fecha, N) with string comparison on N. -/
def rowKeyLt (a b : Row) : Prop :=
  a.fecha < b.fecha ∨ (a.fecha = b.fecha ∧ a.n < b.n)

instance (a b : Row) : Decidable (rowKeyLt a b) := by
  unfold rowKeyLt; infer_instance

/-- Stable insertion of a row into a list sorted by rowKeyLt: the new row goes
before every row of equal key, matching the stability of the pandas sort. -/
def insertRow (r : Row) : List Row → List Row
  | [] => [r]
  | x :: xs => if rowKeyLt x r then x :: insertRow r xs else r :: x :: xs

/-- Stable sort by (Fecha, N) ascending, line 240. -/
def sortRows (l : List Row) : List Row := l.foldr insertRow []

/-- Rows sorting strictly before the fixed key of a re-attached anchor row
(sentinel date, id "00"). -/
def anchorKeyLt (x : Row) : Bool :=
  decide (x.fecha < sentinelDate ∨ (x.fecha = sentinelDate ∧ x.n < "00"))

/-- recalculate_accumulated_balances (lines 153-243): reads the three stored
tables and returns the replacement "proveedores" table. -/
def recalculate_accumulated_balances
    (data : List Row) (deps : List Dep) (notes : List Note) : List Row :=
  let ops3 := opsStage3 data deps
  let t := dailyTable ops3 notes
  sortRows ((anchorsOf data).map resetAnchor ++ ops3.map (broadcastRow t))

/-- get_next_n: one more than the largest numeric "N" among operational rows,
formatted with two digits; "01" when there are none. -/
def toNumN (s : String) : Nat := (s.toNat?).getD 0

/-- Largest numeric "N" among the rows. -/
def maxN (l : List Row) : Nat := (l.map (fun r => toNumN r.n)).foldr max 0

/-- Two-digit zero-padded formatting of a sequence number. -/
def formatN (k : Nat) : String := if k < 10 then "0" ++ toString k else toString k

/-- get_next_n (lines 245-253). -/
def get_next_n (df : List Row) : String :=
  let f := opsOf df
  if f.isEmpty then "01" else formatN (maxN f + 1)

/-- The nueva_fila record built by add_supplier_record (lines 337-362). -/
def newSupplierRow (data : List Row) (fecha : Nat) (proveedor : String)
    (cantidad pesoSalida pesoEntrada : ℚ) (tipoDocumento : String)
    (gavetas precioUnitario : ℚ) : Row :=
  let kilos := pesoSalida - pesoEntrada
  let libras := kilos * LBS_PER_KG
  { n := get_next_n data
    fecha := fecha
    proveedor := proveedor
    producto := some PRODUCT_NAME
    cantidad := some cantidad
    pesoSalida := some pesoSalida
    pesoEntrada := some pesoEntrada
    tipoDocumento := some tipoDocumento
    gavetas := some gavetas
    precioUnitario := some precioUnitario
    promedio := some (if cantidad ≠ 0 then libras / cantidad else 0)
    kilosRestantes := some kilos
    librasRestantes := some libras
    total := some (libras * precioUnitario)
    montoDeposito := some 0
    saldoDiario := some 0
    saldoAcumulado := some 0 }

/-- add_supplier_record (lines 323-375): validation, derivation, append;
.error models the st.error calls that return without mutating the dataset. -/
def add_supplier_record (data : List Row) (fecha : Nat) (proveedor : String)
    (cantidad pesoSalida pesoEntrada : ℚ) (tipoDocumento : String)
    (gavetas precioUnitario : ℚ) : Except String (List Row) :=
  if ¬ (0 ≤ cantidad ∧ 0 ≤ pesoSalida ∧ 0 ≤ pesoEntrada ∧ 0 ≤ precioUnitario ∧ 0 ≤ gavetas) then
    .error "Los valores numericos no pueden ser negativos."
  else if cantidad = 0 ∧ pesoSalida = 0 ∧ pesoEntrada = 0 then
    .error "Ingresa una Cantidad y/o Pesos validos."
  else if pesoEntrada > pesoSalida then
    .error "El Peso Entrada no puede ser mayor que el Peso Salida."
  else
    .ok (anchorsOf data ++ (opsOf data ++
      [newSupplierRow data fecha proveedor cantidad pesoSalida pesoEntrada
        tipoDocumento gavetas precioUnitario]))

/-- delete_record (lines 377-390): refuses the BALANCE_INICIAL row (and a bad
index, which raises and is caught); otherwise drops the row. -/
def delete_record (data : List Row) (idx : Nat) : Except String (List Row) :=
  match data.get? idx with
  | none => .error "Error al eliminar el registro."
  | some r =>
    if isAnchor r then .error "No se puede eliminar la fila de BALANCE_INICIAL."
    else .ok (data.eraseIdx idx)

/-- The subset of columns the edit form can change; none leaves a column as
stored. Cantidad and gavetas pass through int(value) in the code. -/
structure EditData where
  fecha : Option Nat := none
  proveedor : Option String := none
  cantidad : Option Int := none
  pesoSalida : Option ℚ := none
  pesoEntrada : Option ℚ := none
  precioUnitario : Option ℚ := none
  tipoDocumento : Option String := none
  gavetas : Option Int := none

/-- Application of the updated_data dictionary onto a row (lines 400-408). -/
def applyEdit (r : Row) (e : EditData) : Row :=
  { r with
    fecha := e.fecha.getD r.fecha
    proveedor := e.proveedor.getD r.proveedor
    cantidad := match e.cantidad with | some z => some (z : ℚ) | none => r.cantidad
    pesoSalida := match e.pesoSalida with | some v => some v | none => r.pesoSalida
    pesoEntrada := match e.pesoEntrada with | some v => some v | none => r.pesoEntrada
    precioUnitario := match e.precioUnitario with | some v => some v | none => r.precioUnitario
    tipoDocumento := match e.tipoDocumento with | some s => some s | none => r.tipoDocumento
    gavetas := match e.gavetas with | some z => some (z : ℚ) | none => r.gavetas }

/-- edit_supplier_record (lines 392-432): refuses the BALANCE_INICIAL row,
otherwise applies the updates and re-derives the four derived columns from the
updated stored values. There is no inbound-versus-outbound validation here. -/
def edit_supplier_record (data : List Row) (idx : Nat) (e : EditData) :
    Except String (List Row) :=
  match data.get? idx with
  | none => .error "Error al editar el registro."
  | some r =>
    if isAnchor r then .error "No se puede editar la fila de BALANCE_INICIAL."
    else
      let r1 := applyEdit r e
      let ps := pnum r1.pesoSalida
      let pe := pnum r1.pesoEntrada
      let c := pnum r1.cantidad
      let pu := pnum r1.precioUnitario
      let kilos := ps - pe
      let libras := kilos * LBS_PER_KG
      .ok (data.set idx
        { r1 with
          kilosRestantes := some kilos
          librasRestantes := some libras
          promedio := some (if c ≠ 0 then libras / c else 0)
          total := some (libras * pu) })

/-- The caller keeps the previous dataset when delete_record errors. -/
def runDelete (data : List Row) (idx : Nat) : List Row :=
  match delete_record data idx with
  | .ok l => l
  | .error _ => data

/-- The caller keeps the previous dataset when edit_supplier_record errors. -/
def runEdit (data : List Row) (idx : Nat) (e : EditData) : List Row :=
  match edit_supplier_record data idx e with
  | .ok l => l
  | .error _ => data

/-- The caller keeps the previous dataset when add_supplier_record errors. -/
def runAdd (data : List Row) (fecha : Nat) (proveedor : String)
    (cantidad pesoSalida pesoEntrada : ℚ) (tipoDocumento : String)
    (gavetas precioUnitario : ℚ) : List Row :=
  match add_supplier_record data fecha proveedor cantidad pesoSalida pesoEntrada
      tipoDocumento gavetas precioUnitario with
  | .ok l => l
  | .error _ => data

/-- Eligible weight of a debit note: sum of the coerced Libras Restantes of
the same-date non-anchor rows (lines 571-577). -/
def eligWeight (data : List Row) (d : Nat) : ℚ :=
  (((data.filter (fun r => decide (r.fecha = d) && !isAnchor r)).map
    (fun r => pnum r.librasRestantes)).sum)

/-- add_debit_note (lines 569-593): computes Libras calculadas and Descuento
posible at write time and appends the note. -/
def add_debit_note (data : List Row) (notas : List Note) (fecha : Nat)
    (descuento descuentoReal : ℚ) : List Note :=
  notas ++ [{ fecha := fecha
              librasCalculadas := some (eligWeight data fecha)
              descuento := some descuento
              descuentoPosible := some (eligWeight data fecha * descuento)
              descuentoReal := some descuentoReal }]

/-- The fila_inicial_saldo row built by the session initialization
(lines 121-134): all columns None except the listed ones. -/
def initialAnchorRow : Row :=
  { n := "00"
    fecha := sentinelDate
    proveedor := "BALANCE_INICIAL"
    producto := none
    cantidad := none
    pesoSalida := none
    pesoEntrada := none
    tipoDocumento := none
    gavetas := none
    precioUnitario := none
    promedio := none
    kilosRestantes := none
    librasRestantes := none
    total := none
    montoDeposito := some 0
    saldoDiario := some 0
    saldoAcumulado := some INITIAL_ACCUMULATED_BALANCE }

/-- The anchor-creation step of the session initialization: prepend the
initial-balance row when no BALANCE_INICIAL row exists. -/
def ensureAnchor (data : List Row) : List Row :=
  if data.any isAnchor then data else initialAnchorRow :: data

/-- The data part of initialize_session_state: ensure the anchor row exists,
then run recalculate_accumulated_balances. -/
def session_init_data (data : List Row) (deps : List Dep) (notes : List Note) :
    List Row :=
  recalculate_accumulated_balances (ensureAnchor data) deps notes

/-- True exactly on the error outcome of a mutating operation. -/
def exceptFailed : Except String (List Row) → Bool
  | .ok _ => false
  | .error _ => true

/-- The user-entered source columns of a row (everything except the derived
columns the engine owns). -/
def srcProj (r : Row) :
    String × Nat × String × Option String × Option ℚ × Option ℚ × Option ℚ
      × Option String × Option ℚ × Option ℚ :=
  (r.n, r.fecha, r.proveedor, r.producto, r.cantidad, r.pesoSalida, r.pesoEntrada,
    r.tipoDocumento, r.gavetas, r.precioUnitario)

/-! Concrete fixtures used by the witness theorems. mkOpRow builds an
operational row the way the application stores it (all numeric cells
present); the derived cells it carries are placeholders that the engine
overwrites. -/

/-- Fixture builder: an operational row with the given source fields. -/
def mkOpRow (nn : String) (d : Nat) (prov : String) (c ps pe pu : ℚ) : Row :=
  { n := nn, fecha := d, proveedor := prov, producto := some PRODUCT_NAME
    cantidad := some c, pesoSalida := some ps, pesoEntrada := some pe
    tipoDocumento := some "Factura", gavetas := some 0, precioUnitario := some pu
    promedio := some 0, kilosRestantes := some 0, librasRestantes := some 0
    total := some 0, montoDeposito := some 0, saldoDiario := some 0
    saldoAcumulado := some 0 }

/-- Fixture: the Scenario A row (100 kg out, 20 kg in, 50 units, price 1). -/
def wRowA : Row := mkOpRow "01" 20240101 "LIRIS SA" 50 100 20 1

/-- Fixture: a second operational row on a later date. -/
def wRowB : Row := mkOpRow "02" 20240102 "Medina" 10 30 10 2

/-- Fixture: a small dataset with the anchor row and two operational rows. -/
def wData : List Row := [initialAnchorRow, wRowA, wRowB]

/-- Fixture: a transfer deposit matching wRowA. -/
def wDep1 : Dep :=
  { fecha := 20240101, empresa := "LIRIS SA", agencia := "Banco Pichincha"
    monto := some 50, documento := "Transferencia", n := "01" }

/-- Fixture: an ATM deposit matching wRowA. -/
def wDep2 : Dep :=
  { fecha := 20240101, empresa := "LIRIS SA", agencia := "Cajero Automatico Pichincha"
    monto := some 30, documento := "Deposito", n := "02" }

/-- Fixture: the deposits table. -/
def wDeps : List Dep := [wDep1, wDep2]

/-- Fixture: a debit note with real discount 5 on the first date. -/
def wNote1 : Note :=
  { fecha := 20240101, librasCalculadas := some 0, descuento := some 0
    descuentoPosible := some 0, descuentoReal := some 5 }

/-- Fixture: the notes table. -/
def wNotes : List Note := [wNote1]

/-- Fixture: the same note with a different possible-discount value only. -/
def wNote1p : Note :=
  { fecha := 20240101, librasCalculadas := some 0, descuento := some 0
    descuentoPosible := some 999, descuentoReal := some 5 }

/-- Fixture: the varied notes table for the C9 invariance witness. -/
def wNotesP : List Note := [wNote1p]

/-- Fixture: a stored row whose converted weight cell is 100. -/
def wRowL1 : Row := { mkOpRow "03" 20240205 "LIRIS SA" 1 1 0 1 with librasRestantes := some 100 }

/-- Fixture: a stored row whose converted weight cell is 50. -/
def wRowL2 : Row := { mkOpRow "04" 20240205 "Medina" 1 1 0 1 with librasRestantes := some 50 }

/-- Fixture: dataset for the Scenario C debit-note computation. -/
def wDataL : List Row := [initialAnchorRow, wRowL1, wRowL2]

/-- Fixture: a valid stored row with 10 kg out and 0 kg in. -/
def wRow8 : Row := mkOpRow "01" 20240103 "Medina" 5 10 0 1

/-- Fixture: dataset for the edit counterexample. -/
def wData8 : List Row := [initialAnchorRow, wRow8]

/-- Fixture: an edit that raises the inbound weight above the outbound one. -/
def wEdit8 : EditData := { pesoEntrada := some 20 }

/-- Fixture: an arbitrary edit payload. -/
def wEditAny : EditData := { pesoSalida := some 7 }

/-- Fixture: the processed image of wRowA, a member of the engine output on
the fixture dataset. -/
def wRowTest : Row :=
  broadcastRow (dailyTable (opsStage3 wData wDeps) wNotes) (stage3Row wDeps wRowA)

/-! Basic facts about the per-row stages. -/

lemma pnum_some (q : ℚ) : pnum (some q) = q := rfl

lemma depositSum_nil (d : Nat) (emp : String) : depositSum [] d emp = 0 := rfl

lemma notesSum_nil (d : Nat) : notesSum [] d = 0 := rfl

lemma adjustedNet_eq (ops : List Row) (notes : List Note) (d : Nat) :
    adjustedNet ops notes d = dailySum ops d + notesSum notes d := by
  unfold adjustedNet
  split
  · rename_i h
    rw [List.isEmpty_iff] at h
    subst h
    rw [notesSum_nil]
    ring
  · rfl

@[simp] lemma coerce_fecha (r : Row) : (coerceDerive r).fecha = r.fecha := rfl
@[simp] lemma coerce_prov (r : Row) : (coerceDerive r).proveedor = r.proveedor := rfl
@[simp] lemma coerce_n (r : Row) : (coerceDerive r).n = r.n := rfl
@[simp] lemma coerce_producto (r : Row) : (coerceDerive r).producto = r.producto := rfl
@[simp] lemma coerce_tipo (r : Row) : (coerceDerive r).tipoDocumento = r.tipoDocumento := rfl

lemma coerce_kilos (r : Row) :
    (coerceDerive r).kilosRestantes = some (pnum r.pesoSalida - pnum r.pesoEntrada) := rfl

lemma coerce_libras (r : Row) :
    (coerceDerive r).librasRestantes
      = some ((pnum r.pesoSalida - pnum r.pesoEntrada) * LBS_PER_KG) := rfl

lemma coerce_promedio (r : Row) :
    (coerceDerive r).promedio
      = some (if pnum r.cantidad ≠ 0 then
          (pnum r.pesoSalida - pnum r.pesoEntrada) * LBS_PER_KG / pnum r.cantidad else 0) := rfl

lemma coerce_total (r : Row) :
    (coerceDerive r).total
      = some ((pnum r.pesoSalida - pnum r.pesoEntrada) * LBS_PER_KG * pnum r.precioUnitario) := rfl

@[simp] lemma attach_fecha (deps : List Dep) (r : Row) :
    (attachDeposit deps r).fecha = r.fecha := by
  unfold attachDeposit; split <;> rfl

@[simp] lemma attach_prov (deps : List Dep) (r : Row) :
    (attachDeposit deps r).proveedor = r.proveedor := by
  unfold attachDeposit; split <;> rfl

@[simp] lemma attach_n (deps : List Dep) (r : Row) :
    (attachDeposit deps r).n = r.n := by
  unfold attachDeposit; split <;> rfl

@[simp] lemma attach_producto (deps : List Dep) (r : Row) :
    (attachDeposit deps r).producto = r.producto := by
  unfold attachDeposit; split <;> rfl

@[simp] lemma attach_tipo (deps : List Dep) (r : Row) :
    (attachDeposit deps r).tipoDocumento = r.tipoDocumento := by
  unfold attachDeposit; split <;> rfl

@[simp] lemma attach_cantidad (deps : List Dep) (r : Row) :
    (attachDeposit deps r).cantidad = r.cantidad := by
  unfold attachDeposit; split <;> rfl

@[simp] lemma attach_ps (deps : List Dep) (r : Row) :
    (attachDeposit deps r).pesoSalida = r.pesoSalida := by
  unfold attachDeposit; split <;> rfl

@[simp] lemma attach_pe (deps : List Dep) (r : Row) :
    (attachDeposit deps r).pesoEntrada = r.pesoEntrada := by
  unfold attachDeposit; split <;> rfl

@[simp] lemma attach_gavetas (deps : List Dep) (r : Row) :
    (attachDeposit deps r).gavetas = r.gavetas := by
  unfold attachDeposit; split <;> rfl

@[simp] lemma attach_pu (deps : List Dep) (r : Row) :
    (attachDeposit deps r).precioUnitario = r.precioUnitario := by
  unfold attachDeposit; split <;> rfl

@[simp] lemma attach_kilos (deps : List Dep) (r : Row) :
    (attachDeposit deps r).kilosRestantes = r.kilosRestantes := by
  unfold attachDeposit; split <;> rfl

@[simp] lemma attach_libras (deps : List Dep) (r : Row) :
    (attachDeposit deps r).librasRestantes = r.librasRestantes := by
  unfold attachDeposit; split <;> rfl

@[simp] lemma attach_promedio (deps : List Dep) (r : Row) :
    (attachDeposit deps r).promedio = r.promedio := by
  unfold attachDeposit; split <;> rfl

@[simp] lemma attach_total (deps : List Dep) (r : Row) :
    (attachDeposit deps r).total = r.total := by
  unfold attachDeposit; split <;> rfl

@[simp] lemma attach_saldoDiario (deps : List Dep) (r : Row) :
    (attachDeposit deps r).saldoDiario = r.saldoDiario := by
  unfold attachDeposit; split <;> rfl

@[simp] lemma attach_saldoAcum (deps : List Dep) (r : Row) :
    (attachDeposit deps r).saldoAcumulado = r.saldoAcumulado := by
  unfold attachDeposit; split <;> rfl

lemma attach_monto (deps : List Dep) (r : Row) :
    (attachDeposit deps r).montoDeposito = some (depositSum deps r.fecha r.proveedor) := by
  unfold attachDeposit
  split
  · rename_i h
    rw [List.isEmpty_iff] at h
    subst h
    rw [depositSum_nil]
  · rfl

@[simp] lemma csd_fecha (r : Row) : (computeSaldoDiario r).fecha = r.fecha := rfl
@[simp] lemma csd_prov (r : Row) : (computeSaldoDiario r).proveedor = r.proveedor := rfl
@[simp] lemma csd_n (r : Row) : (computeSaldoDiario r).n = r.n := rfl
@[simp] lemma csd_monto (r : Row) : (computeSaldoDiario r).montoDeposito = r.montoDeposito := rfl
@[simp] lemma csd_total (r : Row) : (computeSaldoDiario r).total = r.total := rfl
@[simp] lemma csd_kilos (r : Row) : (computeSaldoDiario r).kilosRestantes = r.kilosRestantes := rfl
@[simp] lemma csd_saldoDiario (r : Row) :
    (computeSaldoDiario r).saldoDiario = some (pnum r.montoDeposito - pnum r.total) := rfl

@[simp] lemma broadcast_fecha (t : List (Nat × ℚ × ℚ)) (r : Row) :
    (broadcastRow t r).fecha = r.fecha := rfl
@[simp] lemma broadcast_prov (t : List (Nat × ℚ × ℚ)) (r : Row) :
    (broadcastRow t r).proveedor = r.proveedor := rfl
@[simp] lemma broadcast_n (t : List (Nat × ℚ × ℚ)) (r : Row) :
    (broadcastRow t r).n = r.n := rfl
@[simp] lemma broadcast_monto (t : List (Nat × ℚ × ℚ)) (r : Row) :
    (broadcastRow t r).montoDeposito = r.montoDeposito := rfl
@[simp] lemma broadcast_kilos (t : List (Nat × ℚ × ℚ)) (r : Row) :
    (broadcastRow t r).kilosRestantes = r.kilosRestantes := rfl
@[simp] lemma broadcast_saldoDiario (t : List (Nat × ℚ × ℚ)) (r : Row) :
    (broadcastRow t r).saldoDiario = some (tblAdj t r.fecha) := rfl
@[simp] lemma broadcast_saldoAcum (t : List (Nat × ℚ × ℚ)) (r : Row) :
    (broadcastRow t r).saldoAcumulado = some (tblCum t r.fecha) := rfl

@[simp] lemma reset_prov (r : Row) : (resetAnchor r).proveedor = r.proveedor := rfl
@[simp] lemma reset_n (r : Row) : (resetAnchor r).n = "00" := rfl
@[simp] lemma reset_fecha (r : Row) : (resetAnchor r).fecha = sentinelDate := rfl
@[simp] lemma reset_saldoAcum (r : Row) :
    (resetAnchor r).saldoAcumulado = some INITIAL_ACCUMULATED_BALANCE := rfl
@[simp] lemma reset_saldoDiario (r : Row) : (resetAnchor r).saldoDiario = some 0 := rfl
@[simp] lemma reset_monto (r : Row) : (resetAnchor r).montoDeposito = some 0 := rfl
@[simp] lemma reset_total (r : Row) : (resetAnchor r).total = some 0 := rfl

@[simp] lemma stage3_fecha (deps : List Dep) (r : Row) :
    (stage3Row deps r).fecha = r.fecha := by simp [stage3Row]

@[simp] lemma stage3_prov (deps : List Dep) (r : Row) :
    (stage3Row deps r).proveedor = r.proveedor := by simp [stage3Row]

@[simp] lemma stage3_n (deps : List Dep) (r : Row) :
    (stage3Row deps r).n = r.n := by simp [stage3Row]

lemma stage3_monto (deps : List Dep) (r : Row) :
    (stage3Row deps r).montoDeposito = some (depositSum deps r.fecha r.proveedor) := by
  simp [stage3Row, attach_monto]

lemma stage3_kilos (deps : List Dep) (r : Row) :
    (stage3Row deps r).kilosRestantes = some (pnum r.pesoSalida - pnum r.pesoEntrada) := by
  simp [stage3Row, coerce_kilos]

lemma stage3_saldoDiario (deps : List Dep) (r : Row) :
    (stage3Row deps r).saldoDiario
      = some (depositSum deps r.fecha r.proveedor
          - (pnum r.pesoSalida - pnum r.pesoEntrada) * LBS_PER_KG * pnum r.precioUnitario) := by
  simp [stage3Row, attach_monto, coerce_total, pnum_some]

@[simp] lemma isAnchor_coerce (r : Row) : isAnchor (coerceDerive r) = isAnchor r := by
  simp [isAnchor]

@[simp] lemma isAnchor_stage3 (deps : List Dep) (r : Row) :
    isAnchor (stage3Row deps r) = isAnchor r := by
  simp [isAnchor]

@[simp] lemma isAnchor_broadcast (t : List (Nat × ℚ × ℚ)) (r : Row) :
    isAnchor (broadcastRow t r) = isAnchor r := by
  simp [isAnchor]

@[simp] lemma isAnchor_reset (r : Row) : isAnchor (resetAnchor r) = isAnchor r := by
  simp [isAnchor]

/-! The stable sort is a permutation of its input. -/

lemma perm_insertRow (r : Row) (l : List Row) : (insertRow r l).Perm (r :: l) := by
  induction l with
  | nil => simp [insertRow]
  | cons x xs ih =>
    unfold insertRow
    split
    · exact (List.Perm.cons x ih).trans (List.Perm.swap r x xs)
    · exact List.Perm.refl _

lemma perm_sortRows (l : List Row) : (sortRows l).Perm l := by
  induction l with
  | nil => simp [sortRows]
  | cons x xs ih =>
    unfold sortRows at ih ⊢
    simp only [List.foldr_cons]
    exact (perm_insertRow x _).trans (ih.cons x)

/-- Every row of the engine output is either a reset anchor row or the fully
processed image of an operational input row. -/
lemma mem_recalc {data : List Row} {deps : List Dep} {notes : List Note} {r : Row}
    (h : r ∈ recalculate_accumulated_balances data deps notes) :
    (∃ a ∈ anchorsOf data, r = resetAnchor a)
    ∨ (∃ r0 ∈ opsOf data,
        r = broadcastRow (dailyTable (opsStage3 data deps) notes) (stage3Row deps r0)) := by
  unfold recalculate_accumulated_balances at h
  have h2 := (perm_sortRows _).mem_iff.mp h
  rcases List.mem_append.mp h2 with hA | hO
  · left
    rcases List.mem_map.mp hA with ⟨a, ha, heq⟩
    exact ⟨a, ha, heq.symm⟩
  · right
    unfold opsStage3 at hO
    rw [List.map_map] at hO
    rcases List.mem_map.mp hO with ⟨r0, h0, heq⟩
    exact ⟨r0, h0, heq.symm⟩

/-- C2: the engine attaches as deposit amount the exact-match (Fecha, Empresa)
sum of the deposits (zero on no match, and an empty deposit table gives zero
for every row), computes the per-row daily net as that full day-level deposit
sum minus the row total, and the adjusted daily net of a date is the per-day
sum of row nets plus the per-day sum of declared real discounts. -/
theorem claim_C2 (data : List Row) (deps : List Dep) (notes : List Note)
    (r r0 : Row) (d : Nat) (ops : List Row)
    (hmem : r ∈ recalculate_accumulated_balances data deps notes)
    (hop : isAnchor r = false) :
    r.montoDeposito = some (depositSum deps r.fecha r.proveedor)
    ∧ (stage3Row deps r0).montoDeposito = some (depositSum deps r0.fecha r0.proveedor)
    ∧ (stage3Row deps r0).saldoDiario
        = some (depositSum deps r0.fecha r0.proveedor
            - (pnum r0.pesoSalida - pnum r0.pesoEntrada) * LBS_PER_KG * pnum r0.precioUnitario)
    ∧ depositSum [] d r0.proveedor = 0
    ∧ adjustedNet ops notes d = dailySum ops d + notesSum notes d := by
  refine ⟨?_, stage3_monto deps r0, stage3_saldoDiario deps r0,
    depositSum_nil d r0.proveedor, adjustedNet_eq ops notes d⟩
  rcases mem_recalc hmem with ⟨a, ha, heq⟩ | ⟨r1, h1, heq⟩
  · exfalso
    have : isAnchor a = true := List.of_mem_filter ha
    rw [heq, isAnchor_reset] at hop
    simp [this] at hop
  · subst heq
    rw [broadcast_monto, stage3_monto, broadcast_fecha, stage3_fecha,
      broadcast_prov, stage3_prov]

/-- The processed image of wRowA is a member of the engine output on the
fixture dataset. -/
lemma wRowTest_mem : wRowTest ∈ recalculate_accumulated_balances wData wDeps wNotes := by
  unfold recalculate_accumulated_balances
  apply (perm_sortRows _).mem_iff.mpr
  apply List.mem_append_right
  apply List.mem_map_of_mem
  unfold opsStage3
  apply List.mem_map_of_mem
  decide

/-- C2 witness: the engine run on the concrete fixture dataset with two
deposits of 50 and 30 on the first date. -/
theorem claim_C2_witness :
    wRowTest.montoDeposito = some (depositSum wDeps wRowTest.fecha wRowTest.proveedor)
    ∧ (stage3Row wDeps wRowA).montoDeposito = some (depositSum wDeps wRowA.fecha wRowA.proveedor)
    ∧ (stage3Row wDeps wRowA).saldoDiario
        = some (depositSum wDeps wRowA.fecha wRowA.proveedor
            - (pnum wRowA.pesoSalida - pnum wRowA.pesoEntrada) * LBS_PER_KG
              * pnum wRowA.precioUnitario)
    ∧ depositSum [] 20240101 wRowA.proveedor = 0
    ∧ adjustedNet (opsStage3 wData wDeps) wNotes 20240101
        = dailySum (opsStage3 wData wDeps) 20240101 + notesSum wNotes 20240101 := by
  exact claim_C2 wData wDeps wNotes wRowTest wRowA 20240101 (opsStage3 wData wDeps)
    wRowTest_mem (by decide)

/-- C3: both row creation and the reconciliation derivation compute
net weight = wo - wi, converted weight = net * 2.20462, unit average =
converted / n for nonzero n and 0 for n = 0, and row total = converted *
price. -/
theorem claim_C3 (r : Row) (data : List Row) (fecha : Nat) (prov : String)
    (c ps pe : ℚ) (tipo : String) (gav pu : ℚ)
    (hc : 0 ≤ c) (hps : 0 ≤ ps) (hpe : 0 ≤ pe) (hpu : 0 ≤ pu) (hgav : 0 ≤ gav)
    (hnz : ¬ (c = 0 ∧ ps = 0 ∧ pe = 0)) (hwt : ¬ pe > ps) :
    ((coerceDerive r).kilosRestantes = some (pnum r.pesoSalida - pnum r.pesoEntrada)
     ∧ (coerceDerive r).librasRestantes
         = some ((pnum r.pesoSalida - pnum r.pesoEntrada) * LBS_PER_KG)
     ∧ (coerceDerive r).promedio
         = some (if pnum r.cantidad ≠ 0 then
             (pnum r.pesoSalida - pnum r.pesoEntrada) * LBS_PER_KG / pnum r.cantidad else 0)
     ∧ (coerceDerive r).total
         = some ((pnum r.pesoSalida - pnum r.pesoEntrada) * LBS_PER_KG * pnum r.precioUnitario))
    ∧ add_supplier_record data fecha prov c ps pe tipo gav pu
        = .ok (anchorsOf data ++ (opsOf data
            ++ [newSupplierRow data fecha prov c ps pe tipo gav pu]))
    ∧ (newSupplierRow data fecha prov c ps pe tipo gav pu).kilosRestantes = some (ps - pe)
    ∧ (newSupplierRow data fecha prov c ps pe tipo gav pu).librasRestantes
        = some ((ps - pe) * LBS_PER_KG)
    ∧ (newSupplierRow data fecha prov c ps pe tipo gav pu).promedio
        = some (if c ≠ 0 then (ps - pe) * LBS_PER_KG / c else 0)
    ∧ (newSupplierRow data fecha prov c ps pe tipo gav pu).total
        = some ((ps - pe) * LBS_PER_KG * pu) := by
  refine ⟨⟨coerce_kilos r, coerce_libras r, coerce_promedio r, coerce_total r⟩, ?_,
    rfl, rfl, rfl, rfl⟩
  unfold add_supplier_record
  rw [if_neg (not_not_intro ⟨hc, hps, hpe, hpu, hgav⟩), if_neg hnz, if_neg hwt]

/-- C3 witness: Scenario A inputs (100 kg out, 20 kg in, 50 units, price 1)
give net 80, converted 176.3696, average 3.527392, total 176.3696. -/
theorem claim_C3_witness :
    (newSupplierRow wData 20240101 "LIRIS SA" 50 100 20 "Factura" 0 1).kilosRestantes = some 80
    ∧ (newSupplierRow wData 20240101 "LIRIS SA" 50 100 20 "Factura" 0 1).librasRestantes
        = some (1763696 / 10000)
    ∧ (newSupplierRow wData 20240101 "LIRIS SA" 50 100 20 "Factura" 0 1).promedio
        = some (3527392 / 1000000)
    ∧ (newSupplierRow wData 20240101 "LIRIS SA" 50 100 20 "Factura" 0 1).total
        = some (1763696 / 10000)
    ∧ add_supplier_record wData 20240101 "LIRIS SA" 50 100 20 "Factura" 0 1
        = .ok (anchorsOf wData ++ (opsOf wData
            ++ [newSupplierRow wData 20240101 "LIRIS SA" 50 100 20 "Factura" 0 1])) := by
  obtain ⟨-, hAdd, h1, h2, h3, h4⟩ :=
    claim_C3 wRowA wData 20240101 "LIRIS SA" 50 100 20 "Factura" 0 1
      (by norm_num) (by norm_num) (by norm_num) (by norm_num) (by norm_num)
      (by norm_num) (by norm_num)
  refine ⟨?_, ?_, ?_, ?_, hAdd⟩
  · rw [h1]; norm_num
  · rw [h2]; norm_num [LBS_PER_KG]
  · rw [h3]; norm_num [LBS_PER_KG]
  · rw [h4]; norm_num [LBS_PER_KG]

/-- C6: delete_record and edit_supplier_record refuse the anchor row: the
operation reports failure and the stored dataset is unchanged. -/
theorem claim_C6 (data : List Row) (idx : Nat) (r : Row) (e : EditData)
    (hget : data.get? idx = some r) (ha : isAnchor r = true) :
    exceptFailed (delete_record data idx) = true
    ∧ runDelete data idx = data
    ∧ exceptFailed (edit_supplier_record data idx e) = true
    ∧ runEdit data idx e = data := by
  have hd : delete_record data idx
      = .error "No se puede eliminar la fila de BALANCE_INICIAL." := by
    unfold delete_record
    rw [hget]
    simp [ha]
  have he : edit_supplier_record data idx e
      = .error "No se puede editar la fila de BALANCE_INICIAL." := by
    unfold edit_supplier_record
    rw [hget]
    simp [ha]
  exact ⟨by simp [hd, exceptFailed], by simp [runDelete, hd],
    by simp [he, exceptFailed], by simp [runEdit, he]⟩

/-- C6 witness: the fixture dataset keeps its anchor row at index 0 under an
attempted delete and an attempted edit. -/
theorem claim_C6_witness :
    exceptFailed (delete_record wData 0) = true
    ∧ runDelete wData 0 = wData
    ∧ exceptFailed (edit_supplier_record wData 0 wEditAny) = true
    ∧ runEdit wData 0 wEditAny = wData := by
  exact claim_C6 wData 0 initialAnchorRow wEditAny rfl (by decide)

/-- C7: add_supplier_record rejects any negative numeric field and any
inbound weight above the outbound weight, reporting failure and leaving the
dataset unchanged. -/
theorem claim_C7 (data : List Row) (fecha : Nat) (prov : String)
    (c ps pe : ℚ) (tipo : String) (gav pu : ℚ)
    (hbad : c < 0 ∨ ps < 0 ∨ pe < 0 ∨ pu < 0 ∨ gav < 0 ∨ pe > ps) :
    exceptFailed (add_supplier_record data fecha prov c ps pe tipo gav pu) = true
    ∧ runAdd data fecha prov c ps pe tipo gav pu = data := by
  have hfail : exceptFailed (add_supplier_record data fecha prov c ps pe tipo gav pu) = true := by
    unfold add_supplier_record
    split_ifs with h1 h2 h3 <;> try rfl
    exfalso
    rcases hbad with h | h | h | h | h | h
    · exact absurd h (not_lt.mpr h1.1)
    · exact absurd h (not_lt.mpr h1.2.1)
    · exact absurd h (not_lt.mpr h1.2.2.1)
    · exact absurd h (not_lt.mpr h1.2.2.2.1)
    · exact absurd h (not_lt.mpr h1.2.2.2.2)
    · exact h3 h
  refine ⟨hfail, ?_⟩
  cases hx : add_supplier_record data fecha prov c ps pe tipo gav pu with
  | ok l =>
    rw [hx] at hfail
    exact absurd hfail (by simp [exceptFailed])
  | error m => simp [runAdd, hx]

/-- C7 witness: an inbound weight of 200 against an outbound weight of 100 is
rejected and the fixture dataset is unchanged. -/
theorem claim_C7_witness :
    exceptFailed (add_supplier_record wData 20240101 "LIRIS SA" 50 100 200 "Factura" 0 1) = true
    ∧ runAdd wData 20240101 "LIRIS SA" 50 100 200 "Factura" 0 1 = wData := by
  exact claim_C7 wData 20240101 "LIRIS SA" 50 100 200 "Factura" 0 1
    (Or.inr (Or.inr (Or.inr (Or.inr (Or.inr (by norm_num))))))

/-- C9: a stored debit note carries eligible weight equal to the sum of
converted weights of same-date non-anchor rows at write time and a possible
discount of eligible weight times the rate; the cumulative balance
computation never reads the possible-discount column, so two note tables
agreeing on date and real discount give identical engine output. -/
theorem claim_C9 (data : List Row) (notas : List Note) (fecha : Nat)
    (desc descReal : ℚ) (deps : List Dep) (notes notes2 : List Note)
    (hsame : notes.map (fun nt => (nt.fecha, nt.descuentoReal))
        = notes2.map (fun nt => (nt.fecha, nt.descuentoReal))) :
    add_debit_note data notas fecha desc descReal
      = notas ++ [{ fecha := fecha
                    librasCalculadas := some (eligWeight data fecha)
                    descuento := some desc
                    descuentoPosible := some (eligWeight data fecha * desc)
                    descuentoReal := some descReal }]
    ∧ recalculate_accumulated_balances data deps notes
        = recalculate_accumulated_balances data deps notes2 := by
  constructor
  · rfl
  · have hempty : notes.isEmpty = notes2.isEmpty := by
      cases notes <;> cases notes2 <;> simp_all
    have hproj : notes.map projNote = notes2.map projNote := by
      have h2 := congrArg (List.map (fun e : Nat × Option ℚ => (e.1, pnum e.2))) hsame
      simpa [List.map_map, Function.comp_def, projNote] using h2
    have hns : notesSum notes = notesSum notes2 := by
      funext d
      unfold notesSum
      rw [hproj]
    have hadj : adjustedNet (opsStage3 data deps) notes
        = adjustedNet (opsStage3 data deps) notes2 := by
      funext d
      unfold adjustedNet
      rw [hempty, hns]
    simp only [recalculate_accumulated_balances, dailyTable, hadj]

/-- C9 witness: Scenario C, rate 0.10 on a date whose two rows carry converted
weights 100 and 50, gives eligible weight 150 and possible discount 15; and
changing only a possible-discount cell leaves the engine output unchanged. -/
theorem claim_C9_witness :
    add_debit_note wDataL [] 20240205 (1/10) 0
      = [{ fecha := 20240205
           librasCalculadas := some (eligWeight wDataL 20240205)
           descuento := some (1/10)
           descuentoPosible := some (eligWeight wDataL 20240205 * (1/10))
           descuentoReal := some 0 }]
    ∧ recalculate_accumulated_balances wData wDeps wNotes
        = recalculate_accumulated_balances wData wDeps wNotesP
    ∧ eligWeight wDataL 20240205 = 150
    ∧ eligWeight wDataL 20240205 * (1/10 : ℚ) = 15 := by
  have h := claim_C9 wDataL [] 20240205 (1/10) 0 wDeps wNotes wNotesP rfl
  have h2 := claim_C9 wData [] 20240205 (1/10) 0 wDeps wNotes wNotesP rfl
  have helig : eligWeight wDataL 20240205 = 150 := by
    have hfil : wDataL.filter (fun r => decide (r.fecha = 20240205) && !isAnchor r)
        = [wRowL1, wRowL2] := rfl
    unfold eligWeight
    rw [hfil]
    norm_num [wRowL1, wRowL2, mkOpRow, pnum]
  exact ⟨h.1, h2.2, helig, by rw [helig]; norm_num⟩

/-! Further field-preservation facts used by the frame and balance claims. -/

@[simp] lemma csd_producto (r : Row) : (computeSaldoDiario r).producto = r.producto := rfl
@[simp] lemma csd_tipo (r : Row) : (computeSaldoDiario r).tipoDocumento = r.tipoDocumento := rfl
@[simp] lemma csd_cantidad (r : Row) : (computeSaldoDiario r).cantidad = r.cantidad := rfl
@[simp] lemma csd_ps (r : Row) : (computeSaldoDiario r).pesoSalida = r.pesoSalida := rfl
@[simp] lemma csd_pe (r : Row) : (computeSaldoDiario r).pesoEntrada = r.pesoEntrada := rfl
@[simp] lemma csd_gavetas (r : Row) : (computeSaldoDiario r).gavetas = r.gavetas := rfl
@[simp] lemma csd_pu (r : Row) : (computeSaldoDiario r).precioUnitario = r.precioUnitario := rfl
@[simp] lemma csd_libras (r : Row) : (computeSaldoDiario r).librasRestantes = r.librasRestantes := rfl
@[simp] lemma csd_promedio (r : Row) : (computeSaldoDiario r).promedio = r.promedio := rfl
@[simp] lemma csd_saldoAcum (r : Row) : (computeSaldoDiario r).saldoAcumulado = r.saldoAcumulado := rfl

@[simp] lemma broadcast_producto (t : List (Nat × ℚ × ℚ)) (r : Row) :
    (broadcastRow t r).producto = r.producto := rfl
@[simp] lemma broadcast_tipo (t : List (Nat × ℚ × ℚ)) (r : Row) :
    (broadcastRow t r).tipoDocumento = r.tipoDocumento := rfl
@[simp] lemma broadcast_cantidad (t : List (Nat × ℚ × ℚ)) (r : Row) :
    (broadcastRow t r).cantidad = r.cantidad := rfl
@[simp] lemma broadcast_ps (t : List (Nat × ℚ × ℚ)) (r : Row) :
    (broadcastRow t r).pesoSalida = r.pesoSalida := rfl
@[simp] lemma broadcast_pe (t : List (Nat × ℚ × ℚ)) (r : Row) :
    (broadcastRow t r).pesoEntrada = r.pesoEntrada := rfl
@[simp] lemma broadcast_gavetas (t : List (Nat × ℚ × ℚ)) (r : Row) :
    (broadcastRow t r).gavetas = r.gavetas := rfl
@[simp] lemma broadcast_pu (t : List (Nat × ℚ × ℚ)) (r : Row) :
    (broadcastRow t r).precioUnitario = r.precioUnitario := rfl
@[simp] lemma broadcast_libras (t : List (Nat × ℚ × ℚ)) (r : Row) :
    (broadcastRow t r).librasRestantes = r.librasRestantes := rfl
@[simp] lemma broadcast_promedio (t : List (Nat × ℚ × ℚ)) (r : Row) :
    (broadcastRow t r).promedio = r.promedio := rfl
@[simp] lemma broadcast_total (t : List (Nat × ℚ × ℚ)) (r : Row) :
    (broadcastRow t r).total = r.total := rfl

@[simp] lemma coerce_cantidad (r : Row) : (coerceDerive r).cantidad = some (pnum r.cantidad) := rfl
@[simp] lemma coerce_ps (r : Row) : (coerceDerive r).pesoSalida = some (pnum r.pesoSalida) := rfl
@[simp] lemma coerce_pe (r : Row) : (coerceDerive r).pesoEntrada = some (pnum r.pesoEntrada) := rfl
@[simp] lemma coerce_gavetas (r : Row) : (coerceDerive r).gavetas = some (pnum r.gavetas) := rfl
@[simp] lemma coerce_pu (r : Row) :
    (coerceDerive r).precioUnitario = some (pnum r.precioUnitario) := rfl

lemma isAnchor_of_mem_anchorsOf {data : List Row} {a : Row} (h : a ∈ anchorsOf data) :
    isAnchor a = true := List.of_mem_filter h

lemma isAnchor_of_mem_opsOf {data : List Row} {r : Row} (h : r ∈ opsOf data) :
    isAnchor r = false := by
  have := List.of_mem_filter h
  simpa using this

/-- Any reset anchor row of the input reappears in the engine output. -/
lemma anchor_mem_recalc {data : List Row} (deps : List Dep) (notes : List Note) {a : Row}
    (ha : a ∈ anchorsOf data) :
    resetAnchor a ∈ recalculate_accumulated_balances data deps notes := by
  unfold recalculate_accumulated_balances
  apply (perm_sortRows _).mem_iff.mpr
  exact List.mem_append_left _ (List.mem_map_of_mem _ ha)

/-- The processed image of any operational input row reappears in the engine
output. -/
lemma ops_mem_recalc {data : List Row} (deps : List Dep) (notes : List Note) {r0 : Row}
    (h0 : r0 ∈ opsOf data) :
    broadcastRow (dailyTable (opsStage3 data deps) notes) (stage3Row deps r0)
      ∈ recalculate_accumulated_balances data deps notes := by
  unfold recalculate_accumulated_balances
  apply (perm_sortRows _).mem_iff.mpr
  apply List.mem_append_right
  apply List.mem_map_of_mem
  unfold opsStage3
  exact List.mem_map_of_mem _ h0

/-! The strictly sorted duplicate-free date list. -/

lemma mem_insD {a d : Nat} : ∀ {l : List Nat}, a ∈ insD d l ↔ (a = d ∨ a ∈ l) := by
  intro l
  induction l with
  | nil => simp [insD]
  | cons x xs ih =>
    unfold insD
    split
    · simp [List.mem_cons]
    · split
      · rename_i h1 h2
        subst h2
        simp [List.mem_cons]
      · simp only [List.mem_cons, ih]
        tauto

lemma pairwise_insD {d : Nat} : ∀ {l : List Nat},
    l.Pairwise (· < ·) → (insD d l).Pairwise (· < ·) := by
  intro l
  induction l with
  | nil => intro _; simp [insD]
  | cons x xs ih =>
    intro hp
    rcases List.pairwise_cons.mp hp with ⟨hx, hxs⟩
    unfold insD
    split
    · rename_i h1
      refine List.pairwise_cons.mpr ⟨?_, hp⟩
      intro y hy
      rcases List.mem_cons.mp hy with rfl | hy2
      · exact h1
      · exact h1.trans (hx y hy2)
    · split
      · exact hp
      · rename_i h1 h2
        refine List.pairwise_cons.mpr ⟨?_, ih hxs⟩
        intro y hy
        rcases mem_insD.mp hy with rfl | hy2
        · omega
        · exact hx y hy2

lemma pairwise_sortedDedup (l : List Nat) : (sortedDedup l).Pairwise (· < ·) := by
  induction l with
  | nil => simp [sortedDedup]
  | cons x xs ih =>
    unfold sortedDedup at ih ⊢
    simp only [List.foldr_cons]
    exact pairwise_insD ih

lemma mem_sortedDedup {a : Nat} : ∀ {l : List Nat}, a ∈ sortedDedup l ↔ a ∈ l := by
  intro l
  induction l with
  | nil => simp [sortedDedup]
  | cons x xs ih =>
    unfold sortedDedup at ih ⊢
    simp only [List.foldr_cons, List.mem_cons]
    rw [mem_insD, ih]

lemma pairwise_datesSorted (l : List Row) : (datesSorted l).Pairwise (· < ·) :=
  pairwise_sortedDedup _

lemma mem_datesSorted {d : Nat} {l : List Row} :
    d ∈ datesSorted l ↔ d ∈ l.map (fun r => r.fecha) := mem_sortedDedup

/-- In a strictly ascending list, the filter keeping values at most a minimal
member is exactly that member. -/
lemma filter_le_min {a : Nat} : ∀ {l : List Nat}, l.Pairwise (· < ·) → a ∈ l →
    (∀ x ∈ l, a ≤ x) → l.filter (fun x => decide (x ≤ a)) = [a] := by
  intro l
  induction l with
  | nil => intro _ h; simp at h
  | cons x xs ih =>
    intro hp hmem hmin
    rcases List.pairwise_cons.mp hp with ⟨hx, hxs⟩
    rcases List.mem_cons.mp hmem with rfl | hmem2
    · rw [List.filter_cons_of_pos (by simp)]
      have : xs.filter (fun x2 => decide (x2 ≤ a)) = [] := by
        apply List.filter_eq_nil_iff.mpr
        intro y hy
        have := hx y hy
        simp
        omega
      rw [this]
    · exfalso
      have h1 := hx a hmem2
      have h2 := hmin x (List.mem_cons_self x xs)
      omega

/-- The find-based map lookup of the cumulative table: at any date of a
strictly ascending date list, the running total is the seed plus the sum of
the per-date values over all dates up to and including it. -/
lemma cumsum_find (f : Nat → ℚ) : ∀ (ds : List Nat) (acc : ℚ) (d : Nat),
    ds.Pairwise (· < ·) → d ∈ ds →
    (cumsumPairs acc (ds.map (fun x => (x, f x)))).find? (fun e => decide (e.1 = d))
      = some (d, f d, acc + ((ds.filter (fun x => decide (x ≤ d))).map f).sum) := by
  intro ds
  induction ds with
  | nil => intro acc d _ hd; simp at hd
  | cons x xs ih =>
    intro acc d hp hd
    rcases List.pairwise_cons.mp hp with ⟨hx, hxs⟩
    simp only [List.map_cons, cumsumPairs]
    rcases List.mem_cons.mp hd with rfl | hdxs
    · rw [List.find?_cons_of_pos _ (by simp)]
      have hfil : (d :: xs).filter (fun y => decide (y ≤ d)) = [d] := by
        rw [List.filter_cons_of_pos (by simp)]
        have : xs.filter (fun y => decide (y ≤ d)) = [] := by
          apply List.filter_eq_nil_iff.mpr
          intro y hy
          have := hx y hy
          simp
          omega
        rw [this]
      rw [hfil]
      simp
    · have hxd : x < d := hx d hdxs
      rw [List.find?_cons_of_neg _ (by simp; omega)]
      rw [ih (acc + f x) d hxs hdxs]
      have hfil : (x :: xs).filter (fun y => decide (y ≤ d))
          = x :: xs.filter (fun y => decide (y ≤ d)) := by
        rw [List.filter_cons_of_pos (by simp; omega)]
      rw [hfil]
      simp
      ring

/-- The cumulative-balance dictionary value at any operational date. -/
lemma tblCum_dailyTable {ops : List Row} (notes : List Note) {d : Nat}
    (hd : d ∈ datesSorted ops) :
    tblCum (dailyTable ops notes) d
      = INITIAL_ACCUMULATED_BALANCE
        + (((datesSorted ops).filter (fun x => decide (x ≤ d))).map
            (adjustedNet ops notes)).sum := by
  unfold tblCum dailyTable
  rw [cumsum_find (adjustedNet ops notes) (datesSorted ops) _ d (pairwise_datesSorted ops) hd]

/-- Every non-anchor output row carries the cumulative-map value of its date,
and its date is one of the grouped operational dates. -/
lemma output_saldoAcum {data : List Row} {deps : List Dep} {notes : List Note} {q : Row}
    (hq : q ∈ recalculate_accumulated_balances data deps notes)
    (hopq : isAnchor q = false) :
    q.saldoAcumulado = some (tblCum (dailyTable (opsStage3 data deps) notes) q.fecha)
    ∧ q.fecha ∈ datesSorted (opsStage3 data deps) := by
  rcases mem_recalc hq with ⟨a, ha, rfl⟩ | ⟨r0, h0, rfl⟩
  · rw [isAnchor_reset, isAnchor_of_mem_anchorsOf ha] at hopq
    exact absurd hopq (by simp)
  · constructor
    · simp
    · rw [broadcast_fecha, stage3_fecha]
      apply mem_datesSorted.mpr
      unfold opsStage3
      rw [List.map_map]
      exact List.mem_map.mpr ⟨r0, h0, by simp⟩

/-- C1: after one engine run, every operational row carries the starting
constant plus the sum of adjusted daily nets over all distinct operational
dates up to and including its own date; rows sharing a date share the value;
and at the earliest operational date the value is the constant plus that
single adjusted daily net. -/
theorem claim_C1 (data : List Row) (deps : List Dep) (notes : List Note) (r r2 : Row)
    (hmem : r ∈ recalculate_accumulated_balances data deps notes)
    (hop : isAnchor r = false)
    (hmem2 : r2 ∈ recalculate_accumulated_balances data deps notes)
    (hop2 : isAnchor r2 = false) :
    pnum r.saldoAcumulado
      = INITIAL_ACCUMULATED_BALANCE
        + (((datesSorted (opsStage3 data deps)).filter (fun x => decide (x ≤ r.fecha))).map
            (adjustedNet (opsStage3 data deps) notes)).sum
    ∧ (r2.fecha = r.fecha → r2.saldoAcumulado = r.saldoAcumulado)
    ∧ ((∀ q ∈ recalculate_accumulated_balances data deps notes,
          isAnchor q = false → r.fecha ≤ q.fecha) →
        pnum r.saldoAcumulado
          = INITIAL_ACCUMULATED_BALANCE
            + adjustedNet (opsStage3 data deps) notes r.fecha) := by
  obtain ⟨hsa, hdmem⟩ := output_saldoAcum hmem hop
  have hmain : pnum r.saldoAcumulado
      = INITIAL_ACCUMULATED_BALANCE
        + (((datesSorted (opsStage3 data deps)).filter (fun x => decide (x ≤ r.fecha))).map
            (adjustedNet (opsStage3 data deps) notes)).sum := by
    rw [hsa, pnum_some, tblCum_dailyTable notes hdmem]
  refine ⟨hmain, ?_, ?_⟩
  · intro hf
    obtain ⟨hsa2, -⟩ := output_saldoAcum hmem2 hop2
    rw [hsa, hsa2, hf]
  · intro hmin
    have hall : ∀ x ∈ datesSorted (opsStage3 data deps), r.fecha ≤ x := by
      intro x hx
      rcases List.mem_map.mp (mem_datesSorted.mp hx) with ⟨y, hy, rfl⟩
      unfold opsStage3 at hy
      rcases List.mem_map.mp hy with ⟨r0, h0, rfl⟩
      have hqmem := ops_mem_recalc deps notes h0
      have hqa : isAnchor (broadcastRow (dailyTable (opsStage3 data deps) notes)
          (stage3Row deps r0)) = false := by
        simp [isAnchor_of_mem_opsOf h0]
      have := hmin _ hqmem hqa
      simpa using this
    rw [hmain, filter_le_min (pairwise_datesSorted _) hdmem hall]
    simp

/-- C1 witness: the engine run on the fixture dataset, checked on the
processed image of the Scenario A row. -/
theorem claim_C1_witness :
    pnum wRowTest.saldoAcumulado
      = INITIAL_ACCUMULATED_BALANCE
        + (((datesSorted (opsStage3 wData wDeps)).filter
              (fun x => decide (x ≤ wRowTest.fecha))).map
            (adjustedNet (opsStage3 wData wDeps) wNotes)).sum
    ∧ (wRowTest.fecha = wRowTest.fecha → wRowTest.saldoAcumulado = wRowTest.saldoAcumulado)
    ∧ ((∀ q ∈ recalculate_accumulated_balances wData wDeps wNotes,
          isAnchor q = false → wRowTest.fecha ≤ q.fecha) →
        pnum wRowTest.saldoAcumulado
          = INITIAL_ACCUMULATED_BALANCE
            + adjustedNet (opsStage3 wData wDeps) wNotes wRowTest.fecha) :=
  claim_C1 wData wDeps wNotes wRowTest wRowTest wRowTest_mem (by decide)
    wRowTest_mem (by decide)

/-- C5: every anchor row in the engine output carries the fixed starting
balance, zero transactional fields and the sentinel date and id; a dataset
containing the anchor keeps one through the run; and session initialization
creates one when absent. -/
theorem claim_C5 (data data0 : List Row) (deps : List Dep) (notes : List Note) (q : Row)
    (hmem : q ∈ recalculate_accumulated_balances data deps notes)
    (hq : isAnchor q = true)
    (hex : data.any isAnchor = true) :
    (q.saldoAcumulado = some INITIAL_ACCUMULATED_BALANCE ∧ q.saldoDiario = some 0
      ∧ q.montoDeposito = some 0 ∧ q.total = some 0
      ∧ q.fecha = sentinelDate ∧ q.n = "00")
    ∧ (∃ a ∈ recalculate_accumulated_balances data deps notes, isAnchor a = true)
    ∧ (∃ a ∈ session_init_data data0 deps notes,
        isAnchor a = true ∧ a.saldoAcumulado = some INITIAL_ACCUMULATED_BALANCE
          ∧ a.saldoDiario = some 0 ∧ a.montoDeposito = some 0 ∧ a.total = some 0
          ∧ a.fecha = sentinelDate ∧ a.n = "00") := by
  refine ⟨?_, ?_, ?_⟩
  · rcases mem_recalc hmem with ⟨a, ha, rfl⟩ | ⟨r0, h0, rfl⟩
    · exact ⟨rfl, rfl, rfl, rfl, rfl, rfl⟩
    · rw [isAnchor_broadcast, isAnchor_stage3, isAnchor_of_mem_opsOf h0] at hq
      exact absurd hq (by simp)
  · rcases List.any_eq_true.mp hex with ⟨a, ha, hpa⟩
    have ham : a ∈ anchorsOf data := List.mem_filter.mpr ⟨ha, hpa⟩
    exact ⟨resetAnchor a, anchor_mem_recalc deps notes ham, by simp [hpa]⟩
  · unfold session_init_data
    by_cases hca : data0.any isAnchor = true
    · have hens : ensureAnchor data0 = data0 := by
        unfold ensureAnchor
        rw [if_pos hca]
      rw [hens]
      rcases List.any_eq_true.mp hca with ⟨a, ha, hpa⟩
      have ham : a ∈ anchorsOf data0 := List.mem_filter.mpr ⟨ha, hpa⟩
      exact ⟨resetAnchor a, anchor_mem_recalc deps notes ham,
        by simp [hpa], rfl, rfl, rfl, rfl, rfl, rfl⟩
    · have hens : ensureAnchor data0 = initialAnchorRow :: data0 := by
        unfold ensureAnchor
        rw [if_neg hca]
      rw [hens]
      have hia : isAnchor initialAnchorRow = true := rfl
      have ham : initialAnchorRow ∈ anchorsOf (initialAnchorRow :: data0) :=
        List.mem_filter.mpr ⟨List.mem_cons_self _ _, hia⟩
      exact ⟨resetAnchor initialAnchorRow, anchor_mem_recalc deps notes ham,
        by simp [hia], rfl, rfl, rfl, rfl, rfl, rfl⟩

/-- C5 witness: the fixture dataset (with its anchor) and the empty dataset
(anchor created on initialization). -/
theorem claim_C5_witness :
    ((resetAnchor initialAnchorRow).saldoAcumulado = some INITIAL_ACCUMULATED_BALANCE
      ∧ (resetAnchor initialAnchorRow).saldoDiario = some 0
      ∧ (resetAnchor initialAnchorRow).montoDeposito = some 0
      ∧ (resetAnchor initialAnchorRow).total = some 0
      ∧ (resetAnchor initialAnchorRow).fecha = sentinelDate
      ∧ (resetAnchor initialAnchorRow).n = "00")
    ∧ (∃ a ∈ recalculate_accumulated_balances wData wDeps wNotes, isAnchor a = true)
    ∧ (∃ a ∈ session_init_data [] wDeps wNotes,
        isAnchor a = true ∧ a.saldoAcumulado = some INITIAL_ACCUMULATED_BALANCE
          ∧ a.saldoDiario = some 0 ∧ a.montoDeposito = some 0 ∧ a.total = some 0
          ∧ a.fecha = sentinelDate ∧ a.n = "00") := by
  have hmem : resetAnchor initialAnchorRow
      ∈ recalculate_accumulated_balances wData wDeps wNotes := by
    apply anchor_mem_recalc
    unfold wData anchorsOf
    exact List.mem_filter.mpr ⟨List.mem_cons_self _ _, rfl⟩
  exact claim_C5 wData [] wDeps wNotes (resetAnchor initialAnchorRow) hmem rfl rfl

/-- The non-anchor part of the engine output is a permutation of the
processed operational rows. -/
lemma opsOf_recalc_perm (data : List Row) (deps : List Dep) (notes : List Note) :
    (opsOf (recalculate_accumulated_balances data deps notes)).Perm
      ((opsStage3 data deps).map
        (broadcastRow (dailyTable (opsStage3 data deps) notes))) := by
  unfold recalculate_accumulated_balances opsOf
  refine ((perm_sortRows _).filter _).trans ?_
  rw [List.filter_append]
  have h1 : ((anchorsOf data).map resetAnchor).filter (fun r => !isAnchor r) = [] := by
    apply List.filter_eq_nil_iff.mpr
    intro a ha
    rcases List.mem_map.mp ha with ⟨b, hb, rfl⟩
    simp [isAnchor_of_mem_anchorsOf hb]
  have h2 : ((opsStage3 data deps).map
        (broadcastRow (dailyTable (opsStage3 data deps) notes))).filter
          (fun r => !isAnchor r)
      = (opsStage3 data deps).map
          (broadcastRow (dailyTable (opsStage3 data deps) notes)) := by
    apply List.filter_eq_self.mpr
    intro a ha
    rcases List.mem_map.mp ha with ⟨y, hy, rfl⟩
    unfold opsStage3 at hy
    rcases List.mem_map.mp hy with ⟨r0, h0, rfl⟩
    simp [isAnchor_of_mem_opsOf h0]
  rw [h1, h2]
  simp

/-- C10: on well-formed rows one engine run keeps the operational row count
and the multiset of source fields, changing only derived columns and order. -/
theorem claim_C10 (data : List Row) (deps : List Dep) (notes : List Note)
    (hwf : ∀ r ∈ opsOf data, r.cantidad.isSome ∧ r.pesoSalida.isSome ∧ r.pesoEntrada.isSome
        ∧ r.gavetas.isSome ∧ r.precioUnitario.isSome) :
    ((opsOf (recalculate_accumulated_balances data deps notes)).map srcProj).Perm
        ((opsOf data).map srcProj)
    ∧ (opsOf (recalculate_accumulated_balances data deps notes)).length
        = (opsOf data).length := by
  have hmapeq : ((opsStage3 data deps).map
        (broadcastRow (dailyTable (opsStage3 data deps) notes))).map srcProj
      = (opsOf data).map srcProj := by
    unfold opsStage3
    rw [List.map_map, List.map_map]
    apply List.map_congr_left
    intro r0 h0
    obtain ⟨hc, hps, hpe, hg, hpu⟩ := hwf r0 h0
    obtain ⟨c, hceq⟩ := Option.isSome_iff_exists.mp hc
    obtain ⟨ps, hpseq⟩ := Option.isSome_iff_exists.mp hps
    obtain ⟨pe, hpeeq⟩ := Option.isSome_iff_exists.mp hpe
    obtain ⟨g, hgeq⟩ := Option.isSome_iff_exists.mp hg
    obtain ⟨pu, hpueq⟩ := Option.isSome_iff_exists.mp hpu
    show srcProj (broadcastRow _ (stage3Row deps r0)) = srcProj r0
    unfold srcProj
    simp [stage3Row, hceq, hpseq, hpeeq, hgeq, hpueq, pnum]
  constructor
  · have hperm := (opsOf_recalc_perm data deps notes).map srcProj
    rw [hmapeq] at hperm
    exact hperm
  · have hl := (opsOf_recalc_perm data deps notes).length_eq
    rw [hl]
    unfold opsStage3
    simp [List.length_map]

/-- C10 witness: the fixture dataset has well-formed rows; the engine
preserves their count and source fields up to reordering. -/
theorem claim_C10_witness :
    ((opsOf (recalculate_accumulated_balances wData wDeps wNotes)).map srcProj).Perm
        ((opsOf wData).map srcProj)
    ∧ (opsOf (recalculate_accumulated_balances wData wDeps wNotes)).length
        = (opsOf wData).length :=
  claim_C10 wData wDeps wNotes (by decide)

/-! Remaining stage-level field computations, used for idempotence. -/

@[simp] lemma stage3_producto (deps : List Dep) (r : Row) :
    (stage3Row deps r).producto = r.producto := by simp [stage3Row]
@[simp] lemma stage3_tipo (deps : List Dep) (r : Row) :
    (stage3Row deps r).tipoDocumento = r.tipoDocumento := by simp [stage3Row]
@[simp] lemma stage3_cantidad (deps : List Dep) (r : Row) :
    (stage3Row deps r).cantidad = some (pnum r.cantidad) := by simp [stage3Row]
@[simp] lemma stage3_ps (deps : List Dep) (r : Row) :
    (stage3Row deps r).pesoSalida = some (pnum r.pesoSalida) := by simp [stage3Row]
@[simp] lemma stage3_pe (deps : List Dep) (r : Row) :
    (stage3Row deps r).pesoEntrada = some (pnum r.pesoEntrada) := by simp [stage3Row]
@[simp] lemma stage3_gavetas (deps : List Dep) (r : Row) :
    (stage3Row deps r).gavetas = some (pnum r.gavetas) := by simp [stage3Row]
@[simp] lemma stage3_pu (deps : List Dep) (r : Row) :
    (stage3Row deps r).precioUnitario = some (pnum r.precioUnitario) := by simp [stage3Row]
@[simp] lemma stage3_saldoAcum (deps : List Dep) (r : Row) :
    (stage3Row deps r).saldoAcumulado = some (pnum r.saldoAcumulado) := by
  simp [stage3Row, coerceDerive]

lemma stage3_libras (deps : List Dep) (r : Row) :
    (stage3Row deps r).librasRestantes
      = some ((pnum r.pesoSalida - pnum r.pesoEntrada) * LBS_PER_KG) := by
  simp [stage3Row, coerce_libras]

lemma stage3_promedio (deps : List Dep) (r : Row) :
    (stage3Row deps r).promedio
      = some (if pnum r.cantidad ≠ 0 then
          (pnum r.pesoSalida - pnum r.pesoEntrada) * LBS_PER_KG / pnum r.cantidad else 0) := by
  simp [stage3Row, coerce_promedio]

lemma stage3_total (deps : List Dep) (r : Row) :
    (stage3Row deps r).total
      = some ((pnum r.pesoSalida - pnum r.pesoEntrada) * LBS_PER_KG * pnum r.precioUnitario) := by
  simp [stage3Row, coerce_total]

lemma resetAnchor_idem (a : Row) : resetAnchor (resetAnchor a) = resetAnchor a := rfl

/-- Reprocessing the already processed image of a row and broadcasting again
gives the same row: the whole per-row pipeline is idempotent under a fixed
cumulative table. -/
lemma bc_stage3_idem (deps : List Dep) (T : List (Nat × ℚ × ℚ)) (r0 : Row) :
    broadcastRow T (stage3Row deps (broadcastRow T (stage3Row deps r0)))
      = broadcastRow T (stage3Row deps r0) := by
  ext1 <;>
    simp [broadcastRow, stage3_monto, stage3_saldoDiario, stage3_kilos, stage3_libras,
      stage3_promedio, stage3_total, pnum]

/-- The date and the per-row daily net of a reprocessed processed row are the
ones of the processed row. -/
lemma projSD_stage3_broadcast (deps : List Dep) (T : List (Nat × ℚ × ℚ)) (r0 : Row) :
    projSD (stage3Row deps (broadcastRow T (stage3Row deps r0)))
      = projSD (stage3Row deps r0) := by
  simp [projSD, stage3_saldoDiario, pnum]

/-! Order facts about the (Fecha, N) sort key. -/

lemma rowKeyLt_trans {a b c : Row} (h1 : rowKeyLt a b) (h2 : rowKeyLt b c) : rowKeyLt a c := by
  unfold rowKeyLt at h1 h2 ⊢
  rcases h1 with h1 | ⟨he1, hn1⟩
  · rcases h2 with h2 | ⟨he2, hn2⟩
    · exact Or.inl (h1.trans h2)
    · exact Or.inl (he2 ▸ h1)
  · rcases h2 with h2 | ⟨he2, hn2⟩
    · exact Or.inl (he1 ▸ h2)
    · exact Or.inr ⟨he1.trans he2, hn1.trans hn2⟩

lemma rowKeyLt_irrefl (a : Row) : ¬ rowKeyLt a a := by
  unfold rowKeyLt
  simp

lemma rowKeyLt_asymm {a b : Row} (h : rowKeyLt a b) : ¬ rowKeyLt b a :=
  fun h2 => rowKeyLt_irrefl a (rowKeyLt_trans h h2)

lemma rowKey_eq_of_not_lt {a b : Row} (h1 : ¬ rowKeyLt a b) (h2 : ¬ rowKeyLt b a) :
    a.fecha = b.fecha ∧ a.n = b.n := by
  unfold rowKeyLt at h1 h2
  rcases Nat.lt_trichotomy a.fecha b.fecha with h | h | h
  · exact absurd (Or.inl h) h1
  · refine ⟨h, ?_⟩
    rcases lt_trichotomy a.n b.n with hn | hn | hn
    · exact absurd (Or.inr ⟨h, hn⟩) h1
    · exact hn
    · exact absurd (Or.inr ⟨h.symm, hn⟩) h2
  · exact absurd (Or.inl h) h2

lemma not_rowKeyLt_of_not_of_not {x r y : Row}
    (hxr : ¬ rowKeyLt x r) (hyx : ¬ rowKeyLt y x) : ¬ rowKeyLt y r := by
  intro hyr
  by_cases hrx : rowKeyLt r x
  · exact hyx (rowKeyLt_trans hyr hrx)
  · obtain ⟨he, hn⟩ := rowKey_eq_of_not_lt hxr hrx
    apply hyx
    unfold rowKeyLt at hyr ⊢
    rw [he, hn]
    exact hyr

/-! Sortedness and stability structure of the insertion sort. -/

lemma insertRow_cons (r x : Row) (xs : List Row) :
    insertRow r (x :: xs) = if rowKeyLt x r then x :: insertRow r xs else r :: x :: xs := rfl

lemma insertRow_pairwise {r : Row} : ∀ {l : List Row},
    l.Pairwise (fun a b => ¬ rowKeyLt b a) →
    (insertRow r l).Pairwise (fun a b => ¬ rowKeyLt b a) := by
  intro l
  induction l with
  | nil => intro _; simp [insertRow]
  | cons x xs ih =>
    intro hp
    rcases List.pairwise_cons.mp hp with ⟨hx, hxs⟩
    rw [insertRow_cons]
    split
    · rename_i h1
      refine List.pairwise_cons.mpr ⟨?_, ih hxs⟩
      intro y hy
      rcases List.mem_cons.mp ((perm_insertRow r xs).mem_iff.mp hy) with rfl | hy2
      · exact rowKeyLt_asymm h1
      · exact hx y hy2
    · rename_i h1
      refine List.pairwise_cons.mpr ⟨?_, hp⟩
      intro y hy
      rcases List.mem_cons.mp hy with rfl | hy2
      · exact h1
      · exact not_rowKeyLt_of_not_of_not h1 (hx y hy2)

lemma sortRows_pairwise (l : List Row) :
    (sortRows l).Pairwise (fun a b => ¬ rowKeyLt b a) := by
  induction l with
  | nil => simp [sortRows]
  | cons x xs ih =>
    unfold sortRows at ih ⊢
    simp only [List.foldr_cons]
    exact insertRow_pairwise ih

lemma sortRows_eq_self : ∀ {l : List Row},
    l.Pairwise (fun a b => ¬ rowKeyLt b a) → sortRows l = l := by
  intro l
  induction l with
  | nil => intro _; rfl
  | cons x xs ih =>
    intro hp
    rcases List.pairwise_cons.mp hp with ⟨hx, hxs⟩
    unfold sortRows at ih ⊢
    simp only [List.foldr_cons]
    rw [ih hxs]
    cases xs with
    | nil => rfl
    | cons y ys =>
      rw [insertRow_cons, if_neg (hx y (List.mem_cons_self y ys))]

lemma insertRow_append_of_lt {r : Row} : ∀ {t s : List Row},
    (∀ x ∈ t, rowKeyLt x r) → insertRow r (t ++ s) = t ++ insertRow r s := by
  intro t
  induction t with
  | nil => intro s _; rfl
  | cons x ts ih =>
    intro s h
    have hx := h x (List.mem_cons_self x ts)
    show insertRow r (x :: (ts ++ s)) = x :: (ts ++ insertRow r s)
    rw [insertRow_cons, if_pos hx, ih (fun y hy => h y (List.mem_cons_of_mem x hy))]

lemma insertRow_cons_of_not {r x : Row} {xs : List Row} (h : ¬ rowKeyLt x r) :
    insertRow r (x :: xs) = r :: x :: xs := by
  rw [insertRow_cons, if_neg h]

lemma dropWhile_head_false {p : Row → Bool} : ∀ {l : List Row} {y : Row} {ys : List Row},
    l.dropWhile p = y :: ys → p y = false := by
  intro l
  induction l with
  | nil => intro y ys h; simp [List.dropWhile] at h
  | cons x xs ih =>
    intro y ys h
    rw [List.dropWhile_cons] at h
    split at h
    · exact ih h
    · rename_i hpx
      cases h
      simpa using hpx

/-- anchorKeyLt is the sort-key comparison against any re-attached anchor
row. -/
lemma anchorKeyLt_iff {x a : Row} (h1 : a.fecha = sentinelDate) (h2 : a.n = "00") :
    rowKeyLt x a ↔ anchorKeyLt x = true := by
  unfold rowKeyLt anchorKeyLt
  rw [h1, h2]
  simp

/-- Stable insertion of a block of equal-key anchor rows into a sorted list:
they land together between the strictly smaller keys and the rest. -/
lemma foldr_insert_anchor {A : List Row}
    (hA : ∀ a ∈ A, a.fecha = sentinelDate ∧ a.n = "00") :
    ∀ {S : List Row}, S.Pairwise (fun a b => ¬ rowKeyLt b a) →
    A.foldr insertRow S = S.takeWhile anchorKeyLt ++ A ++ S.dropWhile anchorKeyLt := by
  induction A with
  | nil =>
    intro S _
    simp [List.takeWhile_append_dropWhile]
  | cons a A2 ih =>
    intro S hS
    have ha := hA a (List.mem_cons_self a A2)
    have hA2 : ∀ b ∈ A2, b.fecha = sentinelDate ∧ b.n = "00" :=
      fun b hb => hA b (List.mem_cons_of_mem a hb)
    simp only [List.foldr_cons]
    rw [ih hA2 hS]
    have ht : ∀ x ∈ S.takeWhile anchorKeyLt, rowKeyLt x a := by
      intro x hx
      exact (anchorKeyLt_iff ha.1 ha.2).mpr (List.mem_takeWhile_imp hx)
    rw [show S.takeWhile anchorKeyLt ++ A2 ++ S.dropWhile anchorKeyLt
        = S.takeWhile anchorKeyLt ++ (A2 ++ S.dropWhile anchorKeyLt) by simp,
      insertRow_append_of_lt ht]
    cases hA2c : A2 with
    | cons a2 A3 =>
      have ha2 := hA2 a2 (by rw [hA2c]; exact List.mem_cons_self a2 A3)
      have hnot : ¬ rowKeyLt a2 a := by
        unfold rowKeyLt
        rw [ha.1, ha.2, ha2.1, ha2.2]
        simp
      rw [List.cons_append, insertRow_cons_of_not hnot]
      simp
    | nil =>
      cases hd : S.dropWhile anchorKeyLt with
      | nil => simp [insertRow]
      | cons y ys =>
        have hy : anchorKeyLt y = false := dropWhile_head_false hd
        have hnot : ¬ rowKeyLt y a := by
          rw [anchorKeyLt_iff ha.1 ha.2, hy]
          simp
        rw [List.nil_append, insertRow_cons_of_not hnot]
        simp

/-- The engine output, decomposed: the strictly-smaller-key processed rows,
then the reset anchor block, then the remaining processed rows. -/
lemma recalc_decomp (data : List Row) (deps : List Dep) (notes : List Note) :
    recalculate_accumulated_balances data deps notes
      = (sortRows ((opsStage3 data deps).map
            (broadcastRow (dailyTable (opsStage3 data deps) notes)))).takeWhile anchorKeyLt
        ++ (anchorsOf data).map resetAnchor
        ++ (sortRows ((opsStage3 data deps).map
            (broadcastRow (dailyTable (opsStage3 data deps) notes)))).dropWhile anchorKeyLt := by
  unfold recalculate_accumulated_balances
  show sortRows ((anchorsOf data).map resetAnchor ++ _) = _
  unfold sortRows
  rw [List.foldr_append]
  exact foldr_insert_anchor
    (fun a ha => by rcases List.mem_map.mp ha with ⟨b, hb, rfl⟩; exact ⟨rfl, rfl⟩)
    (sortRows_pairwise _)

/-- No processed operational row is an anchor row. -/
lemma O4_not_anchor {data : List Row} {deps : List Dep} {T : List (Nat × ℚ × ℚ)} {x : Row}
    (hx : x ∈ (opsStage3 data deps).map (broadcastRow T)) : isAnchor x = false := by
  rcases List.mem_map.mp hx with ⟨y, hy, rfl⟩
  unfold opsStage3 at hy
  rcases List.mem_map.mp hy with ⟨r0, h0, rfl⟩
  simp [isAnchor_of_mem_opsOf h0]

/-- The anchor rows of the engine output are exactly the reset anchors of the
input, in order. -/
lemma anchorsOf_recalc (data : List Row) (deps : List Dep) (notes : List Note) :
    anchorsOf (recalculate_accumulated_balances data deps notes)
      = (anchorsOf data).map resetAnchor := by
  rw [recalc_decomp]
  unfold anchorsOf
  rw [List.filter_append, List.filter_append]
  have hS : ∀ x ∈ sortRows ((opsStage3 data deps).map
      (broadcastRow (dailyTable (opsStage3 data deps) notes))), isAnchor x = false :=
    fun x hx => O4_not_anchor ((perm_sortRows _).subset hx)
  have h1 : (List.takeWhile anchorKeyLt (sortRows ((opsStage3 data deps).map
      (broadcastRow (dailyTable (opsStage3 data deps) notes))))).filter isAnchor = [] := by
    apply List.filter_eq_nil_iff.mpr
    intro a ha
    simp [hS a ((List.takeWhile_prefix _).subset ha)]
  have h2 : (List.dropWhile anchorKeyLt (sortRows ((opsStage3 data deps).map
      (broadcastRow (dailyTable (opsStage3 data deps) notes))))).filter isAnchor = [] := by
    apply List.filter_eq_nil_iff.mpr
    intro a ha
    simp [hS a ((List.dropWhile_suffix _).subset ha)]
  have h3 : ((data.filter isAnchor).map resetAnchor).filter isAnchor
      = (data.filter isAnchor).map resetAnchor := by
    apply List.filter_eq_self.mpr
    intro a ha
    rcases List.mem_map.mp ha with ⟨b, hb, rfl⟩
    simp [isAnchor_of_mem_anchorsOf hb]
  rw [h1, h2, h3]
  simp

/-- The operational rows of the engine output are exactly the sorted processed
rows. -/
lemma opsOf_recalc (data : List Row) (deps : List Dep) (notes : List Note) :
    opsOf (recalculate_accumulated_balances data deps notes)
      = sortRows ((opsStage3 data deps).map
          (broadcastRow (dailyTable (opsStage3 data deps) notes))) := by
  rw [recalc_decomp]
  unfold opsOf
  rw [List.filter_append, List.filter_append]
  have hS : ∀ x ∈ sortRows ((opsStage3 data deps).map
      (broadcastRow (dailyTable (opsStage3 data deps) notes))), isAnchor x = false :=
    fun x hx => O4_not_anchor ((perm_sortRows _).subset hx)
  have h1 : (List.takeWhile anchorKeyLt (sortRows ((opsStage3 data deps).map
        (broadcastRow (dailyTable (opsStage3 data deps) notes))))).filter (fun r => !isAnchor r)
      = List.takeWhile anchorKeyLt (sortRows ((opsStage3 data deps).map
          (broadcastRow (dailyTable (opsStage3 data deps) notes)))) := by
    apply List.filter_eq_self.mpr
    intro a ha
    simp [hS a ((List.takeWhile_prefix _).subset ha)]
  have h2 : (List.dropWhile anchorKeyLt (sortRows ((opsStage3 data deps).map
        (broadcastRow (dailyTable (opsStage3 data deps) notes))))).filter (fun r => !isAnchor r)
      = List.dropWhile anchorKeyLt (sortRows ((opsStage3 data deps).map
          (broadcastRow (dailyTable (opsStage3 data deps) notes)))) := by
    apply List.filter_eq_self.mpr
    intro a ha
    simp [hS a ((List.dropWhile_suffix _).subset ha)]
  have h3 : ((anchorsOf data).map resetAnchor).filter (fun r => !isAnchor r) = [] := by
    apply List.filter_eq_nil_iff.mpr
    intro a ha
    rcases List.mem_map.mp ha with ⟨b, hb, rfl⟩
    simp [isAnchor_of_mem_anchorsOf hb]
  rw [h1, h2, h3]
  rw [List.append_nil, List.takeWhile_append_dropWhile]

lemma sortRows_append (l1 l2 : List Row) :
    sortRows (l1 ++ l2) = l1.foldr insertRow (sortRows l2) := by
  unfold sortRows
  rw [List.foldr_append]

/-- Two strictly ascending lists with the same members are equal. -/
lemma strictSorted_ext : ∀ {l1 l2 : List Nat}, l1.Pairwise (· < ·) → l2.Pairwise (· < ·) →
    (∀ a, a ∈ l1 ↔ a ∈ l2) → l1 = l2 := by
  intro l1
  induction l1 with
  | nil =>
    intro l2 _ _ hm
    cases l2 with
    | nil => rfl
    | cons y ys => exact absurd ((hm y).mpr (List.mem_cons_self y ys)) (List.not_mem_nil y)
  | cons x xs ih =>
    intro l2 h1 h2 hm
    cases l2 with
    | nil => exact absurd ((hm x).mp (List.mem_cons_self x xs)) (List.not_mem_nil x)
    | cons y ys =>
      rcases List.pairwise_cons.mp h1 with ⟨hx1, hxs1⟩
      rcases List.pairwise_cons.mp h2 with ⟨hy2, hys2⟩
      have hxy : x = y := by
        rcases List.mem_cons.mp ((hm x).mp (List.mem_cons_self x xs)) with h | h
        · exact h
        · rcases List.mem_cons.mp ((hm y).mpr (List.mem_cons_self y ys)) with h2a | h2a
          · exact h2a.symm
          · have hv1 := hy2 x h
            have hv2 := hx1 y h2a
            omega
      subst hxy
      congr 1
      apply ih hxs1 hys2
      intro a
      constructor
      · intro ha
        have hax := hx1 a ha
        rcases List.mem_cons.mp ((hm a).mp (List.mem_cons_of_mem x ha)) with h | h
        · omega
        · exact h
      · intro ha
        have hax := hy2 a ha
        rcases List.mem_cons.mp ((hm a).mpr (List.mem_cons_of_mem x ha)) with h | h
        · omega
        · exact h

lemma sortedDedup_congr {l1 l2 : List Nat} (h : ∀ a, a ∈ l1 ↔ a ∈ l2) :
    sortedDedup l1 = sortedDedup l2 :=
  strictSorted_ext (pairwise_sortedDedup l1) (pairwise_sortedDedup l2)
    (fun a => (mem_sortedDedup).trans ((h a).trans (mem_sortedDedup).symm))

/-- The daily table reads the rows only through date and per-row daily net,
as a multiset. -/
lemma dailyTable_congr {l l2 : List Row} {notes : List Note}
    (h : (l.map projSD).Perm (l2.map projSD)) :
    dailyTable l notes = dailyTable l2 notes := by
  have hfst : ∀ (m : List Row), m.map (fun r => r.fecha) = (m.map projSD).map Prod.fst := by
    intro m
    rw [List.map_map]
    apply List.map_congr_left
    intro r _
    rfl
  have hd : datesSorted l = datesSorted l2 := by
    unfold datesSorted
    apply sortedDedup_congr
    intro a
    rw [hfst l, hfst l2]
    exact (h.map Prod.fst).mem_iff
  have hsum : ∀ dd, dailySum l dd = dailySum l2 dd := by
    intro dd
    unfold dailySum
    exact ((h.filter _).map _).sum_eq
  have hadj : adjustedNet l notes = adjustedNet l2 notes := by
    funext dd
    unfold adjustedNet
    rw [hsum dd]
  unfold dailyTable
  rw [hd]
  simp only [hadj]

/-- C4: the reconciliation engine is idempotent: a second run on its own
output reproduces that output exactly, derived fields and row order
included. -/
theorem claim_C4 (data : List Row) (deps : List Dep) (notes : List Note) :
    recalculate_accumulated_balances
        (recalculate_accumulated_balances data deps notes) deps notes
      = recalculate_accumulated_balances data deps notes := by
  have hO3p : opsStage3 (recalculate_accumulated_balances data deps notes) deps
      = (sortRows ((opsStage3 data deps).map
          (broadcastRow (dailyTable (opsStage3 data deps) notes)))).map (stage3Row deps) := by
    unfold opsStage3
    rw [show opsOf (recalculate_accumulated_balances data deps notes)
        = sortRows (((opsOf data).map (stage3Row deps)).map
            (broadcastRow (dailyTable (opsStage3 data deps) notes)))
      from opsOf_recalc data deps notes]
    rfl
  have hTbl : dailyTable ((sortRows ((opsStage3 data deps).map
        (broadcastRow (dailyTable (opsStage3 data deps) notes)))).map (stage3Row deps)) notes
      = dailyTable (opsStage3 data deps) notes := by
    apply dailyTable_congr
    rw [List.map_map]
    have h1 : ((opsStage3 data deps).map
          (broadcastRow (dailyTable (opsStage3 data deps) notes))).map
            (projSD ∘ stage3Row deps)
        = (opsStage3 data deps).map projSD := by
      rw [List.map_map]
      apply List.map_congr_left
      intro y hy
      rcases List.mem_map.mp (show y ∈ (opsOf data).map (stage3Row deps) from hy)
        with ⟨r0, h0, rfl⟩
      exact projSD_stage3_broadcast deps _ r0
    exact ((perm_sortRows _).map _).trans (h1 ▸ List.Perm.refl _)
  have hfix : ((sortRows ((opsStage3 data deps).map
        (broadcastRow (dailyTable (opsStage3 data deps) notes)))).map (stage3Row deps)).map
          (broadcastRow (dailyTable (opsStage3 data deps) notes))
      = sortRows ((opsStage3 data deps).map
          (broadcastRow (dailyTable (opsStage3 data deps) notes))) := by
    rw [List.map_map]
    have hpt : ∀ x ∈ sortRows ((opsStage3 data deps).map
        (broadcastRow (dailyTable (opsStage3 data deps) notes))),
        (broadcastRow (dailyTable (opsStage3 data deps) notes) ∘ stage3Row deps) x = x := by
      intro x hx
      have hx4 := (perm_sortRows _).subset hx
      rcases List.mem_map.mp hx4 with ⟨y, hy, rfl⟩
      rcases List.mem_map.mp (show y ∈ (opsOf data).map (stage3Row deps) from hy)
        with ⟨r0, h0, rfl⟩
      exact bc_stage3_idem deps _ r0
    calc (sortRows ((opsStage3 data deps).map
            (broadcastRow (dailyTable (opsStage3 data deps) notes)))).map
              (broadcastRow (dailyTable (opsStage3 data deps) notes) ∘ stage3Row deps)
        = (sortRows ((opsStage3 data deps).map
            (broadcastRow (dailyTable (opsStage3 data deps) notes)))).map id :=
          List.map_congr_left hpt
      _ = _ := List.map_id _
  have hancfix : ((anchorsOf data).map resetAnchor).map resetAnchor
      = (anchorsOf data).map resetAnchor := by
    rw [List.map_map]
    apply List.map_congr_left
    intro a _
    exact resetAnchor_idem a
  have hstep : recalculate_accumulated_balances
      (recalculate_accumulated_balances data deps notes) deps notes
      = sortRows ((anchorsOf data).map resetAnchor
          ++ sortRows ((opsStage3 data deps).map
              (broadcastRow (dailyTable (opsStage3 data deps) notes)))) := by
    show sortRows ((anchorsOf (recalculate_accumulated_balances data deps notes)).map resetAnchor
        ++ (opsStage3 (recalculate_accumulated_balances data deps notes) deps).map
            (broadcastRow (dailyTable
              (opsStage3 (recalculate_accumulated_balances data deps notes) deps) notes)))
      = _
    rw [anchorsOf_recalc data deps notes, hO3p, hTbl, hfix, hancfix]
  rw [hstep]
  have hSsorted := sortRows_pairwise ((opsStage3 data deps).map
    (broadcastRow (dailyTable (opsStage3 data deps) notes)))
  rw [sortRows_append, sortRows_eq_self hSsorted]
  rw [foldr_insert_anchor
    (fun a ha => by rcases List.mem_map.mp ha with ⟨b, hb, rfl⟩; exact ⟨rfl, rfl⟩)
    hSsorted]
  exact (recalc_decomp data deps notes).symm

/-- C8 counterexample: editing a stored valid row (10 kg out, 0 kg in) to an
inbound weight of 20 kg is accepted by edit_supplier_record, stores a net
weight of -10 kg, and the stored net weight stays negative after the engine
rerun: the claimed invariant fails on the code. -/
theorem claim_C8_counterexample :
    exceptFailed (edit_supplier_record wData8 1 wEdit8) = false
    ∧ ((runEdit wData8 1 wEdit8).get? 1).map (fun r => pnum r.kilosRestantes) = some (-10)
    ∧ ((opsOf (recalculate_accumulated_balances (runEdit wData8 1 wEdit8) [] [])).map
        (fun r => pnum r.kilosRestantes)) = [-10]
    ∧ ((-10 : ℚ) < 0) := by
  refine ⟨rfl, ?_, ?_, by norm_num⟩
  · show (some ((10 : ℚ) - 20) : Option ℚ) = some (-10)
    norm_num
  · show [((10 : ℚ) - 20)] = [(-10 : ℚ)]
    norm_num

/-- C8 amended: the non-negative net weight invariant holds for rows entering
through add_supplier_record and is preserved by the reconciliation engine
whenever every stored operational row satisfies inbound at most outbound; the
edit operation, which performs no such validation, is excluded. -/
theorem claim_C8 (data : List Row) (deps : List Dep) (notes : List Note)
    (fecha : Nat) (prov : String) (c ps pe : ℚ) (tipo : String) (gav pu : ℚ) (l : List Row)
    (hnn : ∀ r0 ∈ opsOf data, pnum r0.pesoEntrada ≤ pnum r0.pesoSalida)
    (hadd : add_supplier_record data fecha prov c ps pe tipo gav pu = .ok l) :
    (∀ r ∈ opsOf (recalculate_accumulated_balances data deps notes),
        0 ≤ pnum r.kilosRestantes)
    ∧ l.getLast?.map (fun r => pnum r.kilosRestantes) = some (ps - pe)
    ∧ 0 ≤ ps - pe := by
  refine ⟨?_, ?_⟩
  · intro r hr
    rw [opsOf_recalc] at hr
    have hr4 := (perm_sortRows _).subset hr
    rcases List.mem_map.mp hr4 with ⟨y, hy, rfl⟩
    rcases List.mem_map.mp (show y ∈ (opsOf data).map (stage3Row deps) from hy)
      with ⟨r0, h0, rfl⟩
    rw [broadcast_kilos, stage3_kilos, pnum_some]
    have := hnn r0 h0
    linarith
  · unfold add_supplier_record at hadd
    split_ifs at hadd with h1 h2 h3
    all_goals simp only [Except.ok.injEq, reduceCtorEq] at hadd
    subst hadd
    have hps : pe ≤ ps := not_lt.mp h3
    constructor
    · rw [show anchorsOf data ++ (opsOf data
            ++ [newSupplierRow data fecha prov c ps pe tipo gav pu])
          = (anchorsOf data ++ opsOf data)
            ++ [newSupplierRow data fecha prov c ps pe tipo gav pu]
        from (List.append_assoc _ _ _).symm]
      rw [List.getLast?_concat]
      rfl
    · linarith

/-- C8 amended witness: adding a valid row (10 kg out, 2 kg in) to the
fixture dataset. -/
theorem claim_C8_witness :
    (∀ r ∈ opsOf (recalculate_accumulated_balances wData wDeps wNotes),
        0 ≤ pnum r.kilosRestantes)
    ∧ (anchorsOf wData ++ (opsOf wData
        ++ [newSupplierRow wData 20240110 "Medina" 5 10 2 "Factura" 0 1])).getLast?.map
          (fun r => pnum r.kilosRestantes) = some (10 - 2)
    ∧ (0 : ℚ) ≤ 10 - 2 :=
  claim_C8 wData wDeps wNotes 20240110 "Medina" 5 10 2 "Factura" 0 1 _ (by decide) rfl
